import Mathlib

/-!
Verification of the cadma-flow-api workflow execution and branching engine.

Shallow embedding of the core of `cadmaflow` (a Django application tracking
molecular property data through branching, reproducible workflows) and proofs
of the specification's claims about it.

Modelling conventions:
* The Django ORM database is a `DB` record holding one list per table; a row's
  primary key is its position in the list, creation is list append, `save` of a
  changed row is `List.set`.
* `timezone.now()` is a logical clock `DB.now : Nat`, bumped whenever a
  timestamped row is written, so successively created rows carry strictly
  increasing timestamps (CPython timestamps are microsecond-resolution and
  monotone within one request).
* JSON dict/list fields are association lists / lists of the values the code
  actually stores in them.
* Python string truthiness (`if not method`) is modelled by `truthy`.
-/

namespace CadmaFlow

/-- Model of `StatusChoices` from `cadmaflow/models/choices.py`. -/
inductive Status where
  | PENDING
  | RUNNING
  | COMPLETED
  | FAILED
  | DATA_FROZEN
deriving DecidableEq, Repr, Inhabited

/-- A flat JSON object with string values, used for event `details`,
`results` payloads and preference maps. -/
abbrev JsonObj := List (String × String)

/-- Model of `family_data_config` / `data_retrieval_methods`:
`family_id → {data_class_name → method}` (`execution.py`, `set_data_retrieval_method`). -/
abbrev FamilyConfig := List (String × List (String × String))

/-- Model of `freeze_family_data` snapshot: `family_id → {inchikey → {"id": molecule_pk}}`. -/
abbrev Snapshot := List (String × List (String × Nat))

/-- Python dict assignment `d[k] = v` on an association list. -/
def dictSet (d : List (String × String)) (k v : String) : List (String × String) :=
  if d.any (fun p => p.1 == k) then
    d.map (fun p => if p.1 == k then (k, v) else p)
  else d ++ [(k, v)]

/-- Python `dict.update` (used by `WorkflowBranch.fork` for preference overrides). -/
def dictUpdate (d ov : List (String × String)) : List (String × String) :=
  ov.foldl (fun acc p => dictSet acc p.1 p.2) d

/-- Lookup in a `FamilyConfig`: `cfg.get(family_id, {}).get(data_class_name)`
(`WorkflowExecution.get_data_retrieval_method`). -/
def famCfgGet (cfg : FamilyConfig) (family_id data_class : String) : Option String :=
  match cfg.find? (fun p => p.1 == family_id) with
  | none => none
  | some (_, m) => (m.find? (fun p => p.1 == data_class)).map (·.2)

/-- Model of `cfg.setdefault(family_id, {})[data_class] = method`
(`WorkflowExecution.set_data_retrieval_method`). -/
def famCfgSet (cfg : FamilyConfig) (family_id data_class method : String) : FamilyConfig :=
  if cfg.any (fun p => p.1 == family_id) then
    cfg.map (fun p => if p.1 == family_id then (p.1, dictSet p.2 data_class method) else p)
  else cfg ++ [(family_id, [(data_class, method)])]

/-- Python truthiness of an optional string: `None` and `""` are falsy
(`BaseStep.can_execute` does `if not method`). -/
def truthy : Option String → Bool
  | none => false
  | some s => !(s == "")

/-- Model of `Molecule` (only the fields the engine reads: pk and `inchikey`). -/
structure Molecule where
  id : Nat
  inchikey : String
deriving DecidableEq, Repr, Inhabited

/-- Model of `MolecularFamily` with its many-to-many `members`. -/
structure MolecularFamily where
  family_id : String
  members : List Molecule
deriving DecidableEq, Repr, Inhabited

/-- Model of `Workflow` (the blueprint) from `cadmaflow/models/workflow.py`.
`branch_of` / `root_branch` are row indices into `DB.workflows`. -/
structure Workflow where
  key : String
  name : String
  description : String
  status : Status
  branch_of : Option Nat
  root_branch : Option Nat
  branch_label : String
deriving DecidableEq, Repr, Inhabited

/-- Model of `WorkflowBranch` from `cadmaflow/models/workflow.py`. -/
structure WorkflowBranch where
  branch_id : String
  name : String
  description : String
  workflow : Nat
  parent_branch : Option Nat
  branch_reason : String
  data_selection_preferences : JsonObj
  is_active : Bool
deriving DecidableEq, Repr, Inhabited

/-- Model of `WorkflowExecution` row (`cadmaflow/models/execution.py`).
`workflow`, `branch`, `parent_execution` are row indices; `families` is the
many-to-many to `DB.families`. -/
structure WorkflowExecution where
  execution_id : String
  name : String
  description : String
  workflow : Nat
  branch : Nat
  families : List Nat
  family_data_config : FamilyConfig
  status : Status
  current_step : String
  current_step_index : Int
  parent_execution : Option Nat
  branch_label : String
deriving DecidableEq, Repr, Inhabited

/-- Model of `StepExecution` row (`cadmaflow/models/step_execution.py`). -/
structure StepExecution where
  execution : Nat
  step_id : String
  step_name : String
  order : Int
  input_data_snapshot : Snapshot
  data_retrieval_methods : FamilyConfig
  results : JsonObj
  status : Status
  started_at : Option Nat
  completed_at : Option Nat
  data_frozen_at : Option Nat
  input_signature : String
  input_properties : List String
  providers_used : List String
deriving DecidableEq, Repr, Inhabited

/-- Model of `DataSelection` row (`cadmaflow/models/selection.py`). `molecule` is the
molecule's pk, `data_id` the referenced record's pk, `selected_at` the
`auto_now_add` creation timestamp (not refreshed by upsert updates). -/
structure DataSelection where
  execution : Nat
  branch : Nat
  molecule : Nat
  property_name : String
  data_class : String
  data_id : Nat
  provider_execution : Option Nat
  selected_at : Nat
  selected_by : Option Nat
deriving DecidableEq, Repr, Inhabited

/-- Model of `WorkflowEvent` row (`cadmaflow/models/events.py`), append-only. -/
structure WorkflowEvent where
  execution : Nat
  event_type : String
  details : JsonObj
  created_at : Nat
deriving DecidableEq, Repr, Inhabited

/-- A persisted concrete molecular-data row, reduced to the identity used by
`get_selected_property`: its concrete class name and its pk (`data_id`). -/
structure DataRecord where
  className : String
  data_id : Nat
deriving DecidableEq, Repr, Inhabited

/-- The `data_instance` argument of `select_property_variant`: the engine reads
`__class__.__name__`, `data_id` and `provider_execution` from it. -/
structure DataInstance where
  className : String
  data_id : Nat
  provider_execution : Option Nat
deriving DecidableEq, Repr, Inhabited

/-- The database state: one list per table, plus the logical clock and the
in-memory `SUBCLASS_REGISTRY` (list of registered concrete class names) and
the union of all concrete data-record tables. -/
structure DB where
  workflows : List Workflow
  branches : List WorkflowBranch
  families : List MolecularFamily
  executions : List WorkflowExecution
  step_executions : List StepExecution
  data_selections : List DataSelection
  events : List WorkflowEvent
  registry : List String
  records : List DataRecord
  now : Nat
deriving DecidableEq, Repr, Inhabited

end CadmaFlow

namespace CadmaFlow

/-- Model of `WorkflowExecution.log_event`: append-only insert of a `WorkflowEvent`
with `created_at = now`. -/
def logEvent (db : DB) (i : Nat) (ty : String) (details : JsonObj) : DB :=
  { db with
    events := db.events ++ [{ execution := i, event_type := ty, details := details,
                              created_at := db.now }],
    now := db.now + 1 }

/-- The `while exists(candidate): i += 1; candidate = f"{base}-{i}"` uniqueness
loops of `WorkflowBranch.fork`, `Workflow.branch` and
`WorkflowExecution.branch_execution`. Returns the accepted candidate together
with the final value of the loop counter (which `branch_execution` carries over
into its second loop). `fuel` bounds the loop; callers pass one more than the
number of existing rows, which suffices because each row can collide with at
most one candidate. -/
def avoidCollisionAux (taken : String → Bool) (base : String) :
    Nat → String → Nat → String × Nat
  | 0, cand, i => (cand, i)
  | fuel + 1, cand, i =>
    if taken cand then
      avoidCollisionAux taken base fuel (base ++ "-" ++ toString (i + 1)) (i + 1)
    else (cand, i)

/-- Entry point of the collision loop: the first candidate is `base` itself and
the counter starts at `i0` (0 everywhere except `branch_execution`'s second
loop, which reuses the counter of its first loop). -/
def avoidCollision (taken : String → Bool) (base : String) (i0 fuel : Nat) : String × Nat :=
  avoidCollisionAux taken base fuel base i0

/-- Model of `WorkflowBranch.fork` (`cadmaflow/models/workflow.py`): copies
`data_selection_preferences` (with overrides applied), resolves `branch_id`
collisions with an incrementing suffix, sets `parent_branch = self`.
Returns the updated database and the new branch's row index. -/
def branchFork (db : DB) (branchIdx : Nat) (new_branch_id name : String)
    (reason : Option String) (preference_overrides : Option JsonObj) : DB × Nat :=
  let b := db.branches.getD branchIdx default
  let prefs := match preference_overrides with
    | none => b.data_selection_preferences
    | some ov => dictUpdate b.data_selection_preferences ov
  let cand := (avoidCollision (fun s => db.branches.any (fun x => x.branch_id == s))
      new_branch_id 0 (db.branches.length + 1)).1
  ({ db with branches := db.branches ++ [{
      branch_id := cand, name := name, description := b.description,
      workflow := b.workflow, parent_branch := some branchIdx,
      branch_reason := reason.getD "",
      data_selection_preferences := prefs, is_active := true }] },
   db.branches.length)

/-- Model of `Workflow.branch` (`cadmaflow/models/workflow.py`): new blueprint with a
timestamp-based collision-avoided key, `branch_of = self`,
`root_branch = self.root_branch or self`. -/
def workflowBranch (db : DB) (wfIdx : Nat) (branch_label : Option String) : DB × Nat :=
  let wf := db.workflows.getD wfIdx default
  let base := wf.key ++ "-br-" ++ toString db.now
  let cand := (avoidCollision (fun s => db.workflows.any (fun x => x.key == s))
      base 0 (db.workflows.length + 1)).1
  ({ db with workflows := db.workflows ++ [{
      key := cand, name := wf.name, description := wf.description,
      status := Status.PENDING, branch_of := some wfIdx,
      root_branch := some (wf.root_branch.getD wfIdx),
      branch_label := branch_label.getD ("branch-" ++ toString db.now) }] },
   db.workflows.length)

/-- Model of `WorkflowExecution.fork_execution`: shallow clone into `targetBranch` —
copies description, blueprint, family config and family membership, annotates
the name, sets `parent_execution = self`, and logs a `FORK` event **on the
clone** (`clone.log_event(...)` in the source). Copies no `StepExecution`
and no `DataSelection` rows. Returns the database and the clone's index. -/
def forkExecution (db : DB) (i : Nat) (new_execution_id : String) (targetBranch : Nat) :
    DB × Nat :=
  let ex := db.executions.getD i default
  let tb := db.branches.getD targetBranch default
  let cloneIdx := db.executions.length
  let db1 : DB := { db with executions := db.executions ++ [{
      execution_id := new_execution_id,
      name := ex.name ++ " (fork:" ++ tb.branch_id ++ ")",
      description := ex.description,
      workflow := ex.workflow,
      branch := targetBranch,
      families := ex.families,
      family_data_config := ex.family_data_config,
      status := Status.PENDING,
      current_step := "",
      current_step_index := 0,
      parent_execution := some i,
      branch_label := tb.branch_id }] }
  (logEvent db1 cloneIdx "FORK"
      [("from", ex.execution_id), ("to_branch", tb.branch_id)],
   cloneIdx)

/-- Model of `WorkflowExecution.start_step`: creates a RUNNING `StepExecution` with
`started_at = data_frozen_at = now` and all other fields at their model
defaults. Returns the database and the new row's index. -/
def startStep (db : DB) (i : Nat) (step_id step_name : String) (order : Int)
    (frozen_snapshot : Snapshot) (retrieval_methods : FamilyConfig) : DB × Nat :=
  ({ db with
      step_executions := db.step_executions ++ [{
        execution := i, step_id := step_id, step_name := step_name, order := order,
        input_data_snapshot := frozen_snapshot,
        data_retrieval_methods := retrieval_methods,
        results := [], status := Status.RUNNING,
        started_at := some db.now, completed_at := none, data_frozen_at := some db.now,
        input_signature := "", input_properties := [], providers_used := [] }],
      now := db.now + 1 },
   db.step_executions.length)

/-- Model of `WorkflowExecution.complete_step`: writes `results`, transitions the step
(at row `j`) to COMPLETED with `completed_at`, advances the execution cursor
(`current_step`, `current_step_index = order + 1`) and logs `STEP_COMPLETED`. -/
def completeStep (db : DB) (i j : Nat) (results : JsonObj) : DB :=
  let se := db.step_executions.getD j default
  let db1 : DB := { db with
    step_executions := db.step_executions.set j
      { se with results := results, status := Status.COMPLETED,
                completed_at := some db.now },
    now := db.now + 1 }
  let ex := db1.executions.getD i default
  let db2 : DB := { db1 with
    executions := db1.executions.set i
      { ex with current_step := se.step_id, current_step_index := se.order + 1 } }
  logEvent db2 i "STEP_COMPLETED" [("step_id", se.step_id)]

/-- Model of `StepExecution.mark_failed`: FAILED status, `results = {"error": message}`,
`completed_at` stamped, `STEP_FAILED` event on the owning execution. The
owning execution row itself is not written. -/
def markFailed (db : DB) (j : Nat) (message : String) : DB :=
  let se := db.step_executions.getD j default
  let db1 : DB := { db with
    step_executions := db.step_executions.set j
      { se with status := Status.FAILED, results := [("error", message)],
                completed_at := some db.now },
    now := db.now + 1 }
  logEvent db1 se.execution "STEP_FAILED"
    [("step_id", se.step_id), ("error", message)]

/-- Model of `WorkflowExecution.set_data_retrieval_method`: writes one entry of
`family_data_config` and saves the execution row. -/
def setDataRetrievalMethod (db : DB) (i : Nat) (family_id data_class method : String) : DB :=
  let ex := db.executions.getD i default
  let ex1 : WorkflowExecution :=
    { ex with
      family_data_config := famCfgSet ex.family_data_config family_id data_class method }
  { db with executions := db.executions.set i ex1 }

/-- Model of `WorkflowExecution.get_data_retrieval_method`. -/
def getDataRetrievalMethod (db : DB) (i : Nat) (family_id data_class : String) :
    Option String :=
  famCfgGet (db.executions.getD i default).family_data_config family_id data_class

/-- Model of `WorkflowExecution.freeze_family_data`: composition snapshot
`{family_id: {inchikey: {"id": pk}}}` over the execution's families. -/
def freezeFamilyData (db : DB) (i : Nat) : Snapshot :=
  (db.executions.getD i default).families.map (fun fIdx =>
    let fam := db.families.getD fIdx default
    (fam.family_id, fam.members.map (fun m => (m.inchikey, m.id))))

end CadmaFlow

namespace CadmaFlow

/-- Replace the first list element satisfying `p` by `f` of it (the single-row
UPDATE performed by Django's `update_or_create` when the keyed row exists;
the `unique_together` constraint on `DataSelection` keeps at most one match). -/
def updateFirst (p : α → Bool) (f : α → α) : List α → List α
  | [] => []
  | x :: xs => if p x then f x :: xs else x :: updateFirst p f xs

/-- The upsert key of `select_property_variant`:
`(execution=self, branch=self.branch, molecule, property_name)`. -/
def selKey (db : DB) (i : Nat) (mol : Molecule) (property_name : String)
    (s : DataSelection) : Bool :=
  s.execution == i && s.branch == (db.executions.getD i default).branch &&
    s.molecule == mol.id && s.property_name == property_name

/-- Model of `DataSelection.objects.update_or_create(...)` inside
`select_property_variant`: update the keyed row's `defaults` fields
(`data_class`, `data_id`, `provider_execution`, `selected_by`; `selected_at`
is `auto_now_add` and therefore untouched by updates), or insert a fresh row
stamped with the current clock. Returns the database and the `created` flag. -/
def upsertSelection (db : DB) (i : Nat) (mol : Molecule) (property_name : String)
    (inst : DataInstance) (user : Option Nat) : DB × Bool :=
  if db.data_selections.any (selKey db i mol property_name) then
    let upd := fun (s : DataSelection) =>
      { s with data_class := inst.className, data_id := inst.data_id,
               provider_execution := inst.provider_execution, selected_by := user }
    let sels := updateFirst (selKey db i mol property_name) upd db.data_selections
    ({ db with data_selections := sels }, false)
  else
    let fresh : DataSelection :=
      { execution := i, branch := (db.executions.getD i default).branch,
        molecule := mol.id, property_name := property_name,
        data_class := inst.className, data_id := inst.data_id,
        provider_execution := inst.provider_execution,
        selected_at := db.now, selected_by := user }
    ({ db with data_selections := db.data_selections ++ [fresh], now := db.now + 1 }, true)

/-- The impact test of `_auto_fork_if_impacts_completed_steps`: does this
execution own a COMPLETED `StepExecution` whose `input_properties` contains
the property? (Both the JSON-contains query and its Python `any` fallback in
the source compute exactly this predicate.) -/
def impactedExists (db : DB) (i : Nat) (property_name : String) : Bool :=
  db.step_executions.any (fun se =>
    se.execution == i && se.status == Status.COMPLETED &&
      se.input_properties.contains property_name)

/-- The selection-cloning loop of `_auto_fork_if_impacts_completed_steps`:
each row of `toClone` is re-inserted for `(newExec, newBranch)`; every insert
is a fresh row whose `auto_now_add` timestamp takes (and bumps) the clock. -/
def cloneSelections (newExec newBranch : Nat) : DB → List DataSelection → DB
  | db, [] => db
  | db, s :: ss =>
    cloneSelections newExec newBranch
      { db with
        data_selections := db.data_selections ++ [{ s with
          execution := newExec, branch := newBranch, selected_at := db.now }],
        now := db.now + 1 }
      ss

/-- Model of `_auto_fork_if_impacts_completed_steps` (`execution.py` lines 249-297):
if some COMPLETED step of this execution declared the property in
`input_properties`, fork the branch (`-var-<timestamp>` id), fork the
execution into it, clone every current `DataSelection` row of this execution
into the new pair, and log `AUTO_FORK` on the original execution; otherwise
do nothing. -/
def autoForkIfImpactsCompletedSteps (db : DB) (i : Nat) (property_name : String) : DB :=
  if impactedExists db i property_name then
    let ex := db.executions.getD i default
    let suffix := toString db.now
    let br := db.branches.getD ex.branch default
    let res1 := branchFork db ex.branch (br.branch_id ++ "-var-" ++ suffix)
      ("Variant " ++ suffix) none none
    let res2 := forkExecution res1.1 i (ex.execution_id ++ "-var-" ++ suffix) res1.2
    let toClone := res2.1.data_selections.filter (fun s => s.execution == i)
    let db3 := cloneSelections res2.2 res1.2 res2.1 toClone
    logEvent db3 i "AUTO_FORK"
      [("property", property_name),
       ("new_branch", (db3.branches.getD res1.2 default).branch_id),
       ("new_execution", (db3.executions.getD res2.2 default).execution_id)]
  else db

/-- Model of `WorkflowExecution.select_property_variant`: upsert the ledger entry,
log `DATA_SELECTION_CHANGED`, then unconditionally run the auto-fork check. -/
def selectPropertyVariant (db : DB) (i : Nat) (mol : Molecule) (property_name : String)
    (inst : DataInstance) (user : Option Nat) : DB :=
  let res := upsertSelection db i mol property_name inst user
  let db2 := logEvent res.1 i "DATA_SELECTION_CHANGED"
    [("molecule", mol.inchikey), ("property", property_name),
     ("data_class", inst.className), ("data_id", toString inst.data_id),
     ("created", toString res.2)]
  autoForkIfImpactsCompletedSteps db2 i property_name

/-- Model of `.order_by('-selected_at').first()` on a filtered selection list: the
first row (in table order, matching the stable treatment of ties) among those
with maximal `selected_at`. -/
def latestSelection : List DataSelection → Option DataSelection
  | [] => none
  | s :: ss =>
    match latestSelection ss with
    | none => some s
    | some t => if t.selected_at > s.selected_at then some t else some s

/-- Resolution tail of `get_selected_property`: look the recorded
`data_class` name up in `SUBCLASS_REGISTRY` (strict: unknown name → `None`),
then fetch the record by pk; if that class's table has no such pk, fall back
to scanning every registered class for the pk (the defensive
`SUBCLASS_REGISTRY.values()` loop in the source). -/
def resolveSelection (db : DB) (ds : DataSelection) : Option DataRecord :=
  if db.registry.contains ds.data_class then
    match db.records.find? (fun r => r.className == ds.data_class && r.data_id == ds.data_id) with
    | some r => some r
    | none =>
      db.registry.findSome? (fun c =>
        db.records.find? (fun r => r.className == c && r.data_id == ds.data_id))
  else none

/-- Model of `WorkflowExecution.get_selected_property`: exact ledger lookup on
`(execution, branch, molecule, property)`, falling back (when absent) to the
most recently selected entry for `(execution, molecule, property)` ignoring
branch, then strict type resolution via `resolveSelection`. -/
def getSelectedProperty (db : DB) (i : Nat) (mol : Molecule) (property_name : String) :
    Option DataRecord :=
  match db.data_selections.find? (selKey db i mol property_name) with
  | some ds => resolveSelection db ds
  | none =>
    match latestSelection (db.data_selections.filter (fun s =>
        s.execution == i && s.molecule == mol.id && s.property_name == property_name)) with
    | none => none
    | some ds => resolveSelection db ds

end CadmaFlow

namespace CadmaFlow

/-- Stable insertion into a list sorted by ascending `order` (ties keep table
order, as `order_by('order')` does for equal keys on a stable scan). -/
def insertByOrder (se : StepExecution) : List StepExecution → List StepExecution
  | [] => [se]
  | x :: xs => if se.order < x.order then se :: x :: xs else x :: insertByOrder se xs

/-- Model of `order_by('order')` on a list of step rows: stable sort ascending. -/
def sortByOrder : List StepExecution → List StepExecution
  | [] => []
  | x :: xs => insertByOrder x (sortByOrder xs)

/-- The step-cloning loop of `branch_execution`: each COMPLETED row of the
source is re-created for `newExec` with every snapshot field copied and the
status written as COMPLETED. -/
def cloneSteps (newExec : Nat) : DB → List StepExecution → DB
  | db, [] => db
  | db, se :: ss =>
    cloneSteps newExec
      { db with step_executions := db.step_executions ++ [{ se with
          execution := newExec, status := Status.COMPLETED }] }
      ss

/-- Model of `WorkflowExecution.branch_execution` (`execution.py` lines 299-357): deep
clone — forks the blueprint (`workflow.branch`), forks the branch (with the
pre-resolved `-br-<timestamp>` candidate fed into `WorkflowBranch.fork`),
creates a new PENDING execution carrying the source's metadata and family
config/membership with `parent_execution = self`, clones every COMPLETED
`StepExecution` ordered by `order`, copies `current_step_index` from the
source and logs `EXEC_BRANCH_CREATED` on the source. The second uniqueness
loop reuses the counter left over from the first one, as in the source.
Returns the database and the new execution's index. -/
def branchExecution (db : DB) (i : Nat) (branch_label reason : Option String) : DB × Nat :=
  let ex := db.executions.getD i default
  let res0 := workflowBranch db ex.workflow branch_label
  let db0 := res0.1
  let newWf := db0.workflows.getD res0.2 default
  let ts := toString db0.now
  let baseBranchId := (db0.branches.getD ex.branch default).branch_id ++ "-br-" ++ ts
  let branchCand := avoidCollision (fun s => db0.branches.any (fun x => x.branch_id == s))
    baseBranchId 0 (db0.branches.length + 1)
  let res1 := branchFork db0 ex.branch branchCand.1 newWf.branch_label reason none
  let db1 := res1.1
  let baseExecId := ex.execution_id ++ "-br-" ++ ts
  let execCand := avoidCollision (fun s => db1.executions.any (fun x => x.execution_id == s))
    baseExecId branchCand.2 (db1.executions.length + 1)
  let newExecIdx := db1.executions.length
  let newExec : WorkflowExecution :=
    { execution_id := execCand.1, name := ex.name, description := ex.description,
      workflow := res0.2, branch := res1.2, families := ex.families,
      family_data_config := ex.family_data_config, status := Status.PENDING,
      current_step := "", current_step_index := 0,
      parent_execution := some i, branch_label := newWf.branch_label }
  let db2 : DB := { db1 with executions := db1.executions ++ [newExec] }
  let completed := sortByOrder (db2.step_executions.filter (fun se =>
    se.execution == i && se.status == Status.COMPLETED))
  let db3 := cloneSteps newExecIdx db2 completed
  let ne := db3.executions.getD newExecIdx default
  let ne1 : WorkflowExecution := { ne with current_step_index := ex.current_step_index }
  let db4 : DB := { db3 with executions := db3.executions.set newExecIdx ne1 }
  (logEvent db4 i "EXEC_BRANCH_CREATED"
      [("new_execution", newExec.execution_id)],
   newExecIdx)

/-- Model of `WorkflowExecution.rewind_to` (`execution.py` lines 359-374):
`branch_execution`, then delete from the **new** execution every step row with
`order > step_order`, set its `current_step_index = step_order + 1`, and log
`REWIND` on the source. Returns the database and the new execution's index. -/
def rewindTo (db : DB) (i : Nat) (step_order : Int) : DB × Nat :=
  let ex := db.executions.getD i default
  let res := branchExecution db i (some ("rewind-to-" ++ toString step_order)) none
  let db1 := res.1
  let newIdx := res.2
  let db2 : DB := { db1 with step_executions := db1.step_executions.filter (fun se =>
    !(se.execution == newIdx && se.order > step_order)) }
  let ne := db2.executions.getD newIdx default
  let ne1 : WorkflowExecution := { ne with current_step_index := step_order + 1 }
  let db3 : DB := { db2 with executions := db2.executions.set newIdx ne1 }
  (logEvent db3 i "REWIND"
      [("from_execution", ex.execution_id),
       ("rewind_to", toString step_order),
       ("new_execution", (db3.executions.getD newIdx default).execution_id)],
   newIdx)

end CadmaFlow

namespace CadmaFlow

/-- A `BaseStep` subclass as the Flow runner sees it
(`cadmaflow/workflows/steps/base.py`): class attributes plus the
`required_data_classes` contract (class names, matching the
`data_class.__name__` lookups of `can_execute`). -/
structure StepDef where
  step_id : String
  name : String
  description : String
  order : Int
  required_data_classes : List String
deriving DecidableEq, Repr, Inhabited

/-- Model of `BaseStep.can_execute`: for every associated family, for every required
data class, *for every family member*, the configured retrieval method must be
truthy. The member loop means a family with no members contributes no check at
all. -/
def canExecute (db : DB) (i : Nat) (step : StepDef) : Bool :=
  (db.executions.getD i default).families.all (fun fIdx =>
    let fam := db.families.getD fIdx default
    step.required_data_classes.all (fun dc =>
      fam.members.all (fun _ =>
        truthy (famCfgGet (db.executions.getD i default).family_data_config
          fam.family_id dc))))

/-- Model of `FlowBase._is_completed`: a COMPLETED `StepExecution` with this step id
already exists on the execution. -/
def isCompletedStep (db : DB) (i : Nat) (step : StepDef) : Bool :=
  db.step_executions.any (fun se =>
    se.execution == i && se.step_id == step.step_id && se.status == Status.COMPLETED)

/-- The write-back of `BaseStep.execute` on success: the step object itself
stamps the `StepExecution` row COMPLETED with its results before the engine's
`complete_step` runs. -/
def executeMarkCompleted (db : DB) (j : Nat) (results : JsonObj) : DB :=
  let se := db.step_executions.getD j default
  let se1 : StepExecution :=
    { se with results := results, status := Status.COMPLETED, completed_at := some db.now }
  { db with step_executions := db.step_executions.set j se1, now := db.now + 1 }

/-- Outcome of `FlowBase._run_single_step` as seen by the caller. -/
inductive RunResult where
  | skipped
  | ok
  | depUnsatisfied (step_id : String)
  | stepFailed (message : String)
deriving DecidableEq, Repr, Inhabited

/-- Model of `FlowBase._run_single_step` (`cadmaflow/workflows/base.py` lines 83-108):
skip if COMPLETED (under `auto_skip_completed`), abort with the
dependency-unsatisfied `RuntimeError` when `can_execute` is false (before any
`StepExecution` row is created), otherwise freeze the family snapshot, create
the RUNNING row via `start_step` and run the step's computation `process`
(its `_process_step`): on success `execute` marks the row COMPLETED and
`complete_step` finalises it and advances the cursor; on an exception the row
is marked FAILED and the exception re-raised. -/
def runSingleStep (db : DB) (i : Nat) (step : StepDef)
    (process : Snapshot → Except String JsonObj) (autoSkip : Bool) : RunResult × DB :=
  if autoSkip && isCompletedStep db i step then (RunResult.skipped, db)
  else if !(canExecute db i step) then (RunResult.depUnsatisfied step.step_id, db)
  else
    let snapshot := freezeFamilyData db i
    let retrieval := (db.executions.getD i default).family_data_config
    let res := startStep db i step.step_id step.name step.order snapshot retrieval
    match process snapshot with
    | Except.ok results =>
      let db2 := executeMarkCompleted res.1 res.2 results
      (RunResult.ok, completeStep db2 i res.2 results)
    | Except.error msg => (RunResult.stepFailed msg, markFailed res.1 res.2 msg)

end CadmaFlow

namespace CadmaFlow

/-- A CPython `float` value. A finite float is represented by its canonical
`repr` string — the shortest decimal literal that parses back to the same
IEEE-754 double. `repr` is a bijection on finite doubles, so this carries
exactly the information of the float; it is also literally the payload
`json.dumps` writes for it. -/
inductive PyFloat where
  | finite (lit : String)
  | nan
  | inf
  | ninf
deriving DecidableEq, Repr, Inhabited

/-- Python `==` on floats: `nan` compares unequal to everything (itself
included); the two zeros `0.0` and `-0.0` have distinct reprs but compare
equal; any other pair of finite floats is `==` iff their canonical reprs
coincide. -/
def pyFloatEq : PyFloat → PyFloat → Bool
  | PyFloat.nan, _ => false
  | _, PyFloat.nan => false
  | PyFloat.inf, PyFloat.inf => true
  | PyFloat.ninf, PyFloat.ninf => true
  | PyFloat.finite a, PyFloat.finite b =>
    a == b || (a == "0.0" && b == "-0.0") || (a == "-0.0" && b == "0.0")
  | _, _ => false

def isDigit (c : Char) : Bool := '0' ≤ c && c ≤ '9'

/-- Consume a maximal run of decimal digits, returning its length and the rest. -/
def spanDigits : List Char → Nat × List Char
  | [] => (0, [])
  | c :: cs =>
    if isDigit c then
      let r := spanDigits cs
      (r.1 + 1, r.2)
    else (0, c :: cs)

/-- Recogniser for the decimal float literals `float(json.loads(...))`
accepts and `repr` produces: optional sign, integer part, optional fraction,
optional signed exponent. -/
def isFloatLiteral (s : String) : Bool :=
  let cs := match s.data with
    | '-' :: rest => rest
    | rest => rest
  let ip := spanDigits cs
  if ip.1 == 0 then false
  else
    let afterFrac := match ip.2 with
      | '.' :: rest =>
        let fp := spanDigits rest
        if fp.1 == 0 then none else some fp.2
      | rest => some rest
    match afterFrac with
    | none => false
    | some rest =>
      match rest with
      | [] => true
      | e :: rest2 =>
        if e == 'e' || e == 'E' then
          let rest3 := match rest2 with
            | '+' :: r => r
            | '-' :: r => r
            | r => r
          let ep := spanDigits rest3
          ep.1 != 0 && ep.2.isEmpty
        else false

/-- Model of `json.dumps` on a float (`_BaseSimpleFloatData.serialize_value`): the
canonical repr for finite values, and the JavaScript-style constants for the
specials (CPython emits these even though they are not valid JSON). -/
def jsonDumpsFloat : PyFloat → String
  | PyFloat.finite lit => lit
  | PyFloat.nan => "NaN"
  | PyFloat.inf => "Infinity"
  | PyFloat.ninf => "-Infinity"

/-- Model of `float(json.loads(...))` (`_BaseSimpleFloatData.deserialize_value`).
CPython's json parser accepts `NaN`/`Infinity`/`-Infinity` and decimal
literals; `float(repr(x)) == x` is a CPython guarantee, so on canonical-repr
payloads (the only ones `serialize_value` ever writes) the parse is the
identity in this representation. Non-literal payloads raise
`json.JSONDecodeError`, modelled as `Except.error`. -/
def jsonLoadsFloat (s : String) : Except String PyFloat :=
  if s == "NaN" then Except.ok PyFloat.nan
  else if s == "Infinity" then Except.ok PyFloat.inf
  else if s == "-Infinity" then Except.ok PyFloat.ninf
  else if isFloatLiteral s then Except.ok (PyFloat.finite s)
  else Except.error "Expecting value"

def hexDigitChar (d : Nat) : Char :=
  if d < 10 then Char.ofNat (48 + d) else Char.ofNat (87 + d)

/-- The four lowercase hex digits CPython's `\uXXXX` escape writes for
`n < 0x10000`. -/
def toHex4 (n : Nat) : List Char :=
  [hexDigitChar (n / 4096 % 16), hexDigitChar (n / 256 % 16),
   hexDigitChar (n / 16 % 16), hexDigitChar (n % 16)]

def hexVal (c : Char) : Option Nat :=
  if '0' ≤ c && c ≤ '9' then some (c.toNat - 48)
  else if 'a' ≤ c && c ≤ 'f' then some (c.toNat - 87)
  else if 'A' ≤ c && c ≤ 'F' then some (c.toNat - 55)
  else none

def parseHex4 (a b c d : Char) : Option Nat :=
  match hexVal a, hexVal b, hexVal c, hexVal d with
  | some x, some y, some z, some w => some (x * 4096 + y * 256 + z * 16 + w)
  | _, _, _, _ => none

/-- Model of `json.dumps` (default `ensure_ascii=True`) escaping of one character:
short escapes for the backslash, the quote and the usual control characters,
`\uXXXX` for every other character outside printable ASCII `0x20..0x7e`
(surrogate pairs above `0xFFFF`). -/
def escapeChar (c : Char) : List Char :=
  if c == '"' then ['\\', '"']
  else if c == '\\' then ['\\', '\\']
  else if c == '\n' then ['\\', 'n']
  else if c == '\r' then ['\\', 'r']
  else if c == '\t' then ['\\', 't']
  else if c == Char.ofNat 8 then ['\\', 'b']
  else if c == Char.ofNat 12 then ['\\', 'f']
  else if 0x20 ≤ c.toNat && c.toNat ≤ 0x7e then [c]
  else if c.toNat < 0x10000 then '\\' :: 'u' :: toHex4 c.toNat
  else
    '\\' :: 'u' :: toHex4 (0xD800 + (c.toNat - 0x10000) / 0x400) ++
      '\\' :: 'u' :: toHex4 (0xDC00 + (c.toNat - 0x10000) % 0x400)

def escapeList : List Char → List Char
  | [] => []
  | c :: cs => escapeChar c ++ escapeList cs

/-- Model of `json.dumps` on a Python string: quote, escape, quote. -/
def jsonDumpsString (s : String) : String :=
  String.mk ('"' :: (escapeList s.data ++ ['"']))

def simpleUnescape (e : Char) : Option Char :=
  if e == '"' then some '"'
  else if e == '\\' then some '\\'
  else if e == '/' then some '/'
  else if e == 'b' then some (Char.ofNat 8)
  else if e == 'f' then some (Char.ofNat 12)
  else if e == 'n' then some '\n'
  else if e == 'r' then some '\r'
  else if e == 't' then some '\t'
  else none

/-- CPython `json` string scanner, from just after the opening quote:
returns the decoded characters and the input remaining after the closing
quote. `\uXXXX` escapes are decoded with surrogate-pair recombination exactly
as `py_scanstring` does. Lean strings hold only Unicode scalar values, so the
lone-surrogate corner (which CPython lets through) is outside the modelled
domain and parses to `none`; `json.dumps` of a valid string never emits it. -/
def parseBody : List Char → Option (List Char × List Char)
  | [] => none
  | '"' :: rest => some ([], rest)
  | '\\' :: 'u' :: a :: b :: c :: d :: rest2 =>
    (match parseHex4 a b c d with
     | none => none
     | some n =>
       if 0xD800 ≤ n && n < 0xDC00 then
         match rest2 with
         | '\\' :: 'u' :: e :: f :: g :: h :: rest3 =>
           (match parseHex4 e f g h with
            | none => none
            | some n2 =>
              if 0xDC00 ≤ n2 && n2 < 0xE000 then
                match parseBody rest3 with
                | none => none
                | some (cs, rem) =>
                  some (Char.ofNat (0x10000 + (n - 0xD800) * 0x400 + (n2 - 0xDC00)) :: cs, rem)
              else none)
         | _ => none
       else if 0xDC00 ≤ n && n < 0xE000 then none
       else
         match parseBody rest2 with
         | none => none
         | some (cs, rem) => some (Char.ofNat n :: cs, rem))
  | '\\' :: e :: rest2 =>
    (match simpleUnescape e with
     | none => none
     | some c =>
       match parseBody rest2 with
       | none => none
       | some (cs, rem) => some (c :: cs, rem))
  | c :: rest =>
    match parseBody rest with
    | none => none
    | some (cs, rem) => some (c :: cs, rem)

/-- Model of `str(json.loads(...))` on a string payload
(`_BaseSimpleStringData.deserialize_value`): the whole document must be one
string literal; `str` of the resulting `str` is itself. -/
def jsonLoadsString (s : String) : Except String String :=
  match s.data with
  | '"' :: rest =>
    match parseBody rest with
    | some (cs, []) => Except.ok (String.mk cs)
    | _ => Except.error "Invalid JSON string"
  | _ => Except.error "Expecting value"

end CadmaFlow

namespace CadmaFlow

/-- A Python runtime value as seen by the molecular-data contract: the two
native types of the concrete QSAR classes, plus a stand-in for any other
runtime type (whose `isinstance` checks fail). -/
inductive PyVal where
  | float (f : PyFloat)
  | str (s : String)
  | other (tyName : String)
deriving DecidableEq, Repr, Inhabited

/-- Errors raised by the molecular-data contract: `RuntimeError` (the
`Immutable` error of the spec) and `ValueError` (wrapping type and
deserialisation failures, per `set_value`/`get_value`). -/
inductive PyErr where
  | runtimeError (msg : String)
  | valueError (msg : String)
deriving DecidableEq, Repr, Inhabited

/-- The concrete-type contract of `AbstractMolecularData`
(`get_native_type` / `validate_value_type` / `serialize_value` /
`deserialize_value`), instantiated below by the two QSAR base classes. -/
structure DataTypeImpl where
  native_type_tag : String
  validate : PyVal → Option PyVal
  serialize_value : PyVal → String
  deserialize_value : String → Except String PyVal

/-- Model of `_BaseSimpleFloatData` (`cadmaflow/data_types/qsar.py` lines 24-38):
native type FLOAT, `isinstance(value, float)` validation,
`json.dumps` / `float(json.loads(...))` serialisation. (`serialize_value` is
only ever invoked on values that passed validation; its value elsewhere is
irrelevant and fixed to `""`.) -/
def floatImpl : DataTypeImpl where
  native_type_tag := "FLOAT"
  validate := fun v => match v with
    | PyVal.float _ => some v
    | _ => none
  serialize_value := fun v => match v with
    | PyVal.float f => jsonDumpsFloat f
    | _ => ""
  deserialize_value := fun s => (jsonLoadsFloat s).map PyVal.float

/-- Model of `_BaseSimpleStringData` (`cadmaflow/data_types/qsar.py` lines 73-87):
native type STRING, `isinstance(value, str)` validation,
`json.dumps` / `str(json.loads(...))` serialisation. -/
def stringImpl : DataTypeImpl where
  native_type_tag := "STRING"
  validate := fun v => match v with
    | PyVal.str _ => some v
    | _ => none
  serialize_value := fun v => match v with
    | PyVal.str s => jsonDumpsString s
    | _ => ""
  deserialize_value := fun s => (jsonLoadsString s).map PyVal.str

/-- The mutable state of an `AbstractMolecularData` row touched by
`set_value` / `get_value` / `freeze`
(`cadmaflow/models/abstract_models.py`). Identity/provenance fields the
contract reads are kept; audit-only fields are omitted. -/
structure MolecularData where
  molecule : Nat
  property_name : String
  value_json : String
  native_type : String
  is_frozen : Bool
  frozen_at : Option Nat
  frozen_by : Option Nat
deriving DecidableEq, Repr, Inhabited

/-- Model of `AbstractMolecularData.set_value`: refuse with `RuntimeError` if frozen
(checked before anything else), then validate the runtime type
(`TypeError` → wrapped `ValueError`), then serialize into `value_json` and
refresh `native_type`. -/
def setValue (impl : DataTypeImpl) (r : MolecularData) (v : PyVal) :
    Except PyErr MolecularData :=
  if r.is_frozen then
    Except.error (PyErr.runtimeError "No se puede modificar un dato congelado")
  else
    match impl.validate v with
    | none => Except.error (PyErr.valueError "Error al establecer valor")
    | some v1 =>
      Except.ok { r with value_json := impl.serialize_value v1,
                         native_type := impl.native_type_tag }

/-- Model of `AbstractMolecularData.get_value`: deserialize `value_json` and
re-validate the native type; failures are wrapped in `ValueError`. -/
def getValue (impl : DataTypeImpl) (r : MolecularData) : Except PyErr PyVal :=
  match impl.deserialize_value r.value_json with
  | Except.error _ => Except.error (PyErr.valueError "Error al obtener valor")
  | Except.ok v =>
    match impl.validate v with
    | none => Except.error (PyErr.valueError "Error al obtener valor")
    | some v1 => Except.ok v1

/-- Model of `AbstractMolecularData.freeze`: one-way flag plus audit stamps; `t` is the
`timezone.now()` reading. -/
def freezeData (r : MolecularData) (user : Option Nat) (t : Nat) : MolecularData :=
  { r with is_frozen := true, frozen_at := some t, frozen_by := user }

end CadmaFlow



namespace CadmaFlow

/-- Well-formedness of a `PyFloat` datum in the repr representation: the
payload of a finite float is a decimal literal. This holds of every CPython
float — `repr` of a finite double is always such a literal — and it keeps the
`finite` payloads disjoint from the `NaN` / `Infinity` / `-Infinity` spellings
of the special values. -/
def PyFloat.wf : PyFloat → Bool
  | PyFloat.finite lit => isFloatLiteral lit
  | _ => true

/-- Well-formedness of a Python value: its float component (if any) is a
well-formed float datum. -/
def pyValWf : PyVal → Bool
  | PyVal.float f => f.wf
  | _ => true

/-- The clone rows inserted by `cloneSelections`, with their `auto_now_add`
timestamps starting at `t`. -/
def clonedSelList (e b : Nat) : Nat → List DataSelection → List DataSelection
  | _, [] => []
  | t, s :: ss =>
    { s with execution := e, branch := b, selected_at := t } :: clonedSelList e b (t + 1) ss

/-- The rows inserted by `cloneSteps`: every snapshot field copied, the row
re-pointed at the new execution, status written as COMPLETED. -/
def clonedStepList (e : Nat) (l : List StepExecution) : List StepExecution :=
  l.map (fun se => { se with execution := e, status := Status.COMPLETED })

/-- A molecule used by the concrete witness database. -/
def sampleMol : Molecule := { id := 0, inchikey := "AAAAAAAAAAAAAAAAAAAAAAAI" }

/-- A small concrete database: one blueprint, one branch, one family with one
molecule, one execution that owns one COMPLETED step depending on `logp`.
Mirrors the fixture of `test_data_selection_auto_fork_creates_new_execution`. -/
def sampleDB : DB where
  workflows := [{ key := "wf1", name := "Test WF", description := "", status := Status.PENDING,
                  branch_of := none, root_branch := none, branch_label := "" }]
  branches := [{ branch_id := "main", name := "Main", description := "", workflow := 0,
                 parent_branch := none, branch_reason := "",
                 data_selection_preferences := [], is_active := true }]
  families := [{ family_id := "fam1", members := [sampleMol] }]
  executions := [{ execution_id := "exec1", name := "Exec 1", description := "", workflow := 0,
                   branch := 0, families := [0], family_data_config := [],
                   status := Status.PENDING, current_step := "", current_step_index := 0,
                   parent_execution := none, branch_label := "" }]
  step_executions := [{ execution := 0, step_id := "s1", step_name := "Step 1", order := 0,
                        input_data_snapshot := [], data_retrieval_methods := [], results := [],
                        status := Status.COMPLETED, started_at := some 1, completed_at := some 2,
                        data_frozen_at := some 1, input_signature := "",
                        input_properties := ["logp"], providers_used := [] }]
  data_selections := []
  events := []
  registry := ["LogPData", "ToxicityData", "AbsorptionData", "MutagenicityData"]
  records := [{ className := "LogPData", data_id := 7 }]
  now := 100

/-- A `LogPData` instance (pk 7) fed to `select_property_variant` in the
witnesses. -/
def inst7 : DataInstance := { className := "LogPData", data_id := 7, provider_execution := none }

/-- Database with one execution and a second branch, used to exercise
`fork_execution` on concrete data. -/
def fork9DB : DB where
  workflows := [{ key := "wf1", name := "WF", description := "", status := Status.PENDING,
                  branch_of := none, root_branch := none, branch_label := "" }]
  branches := [{ branch_id := "main", name := "Main", description := "", workflow := 0,
                 parent_branch := none, branch_reason := "",
                 data_selection_preferences := [], is_active := true },
               { branch_id := "exp", name := "Experiment", description := "", workflow := 0,
                 parent_branch := some 0, branch_reason := "",
                 data_selection_preferences := [], is_active := true }]
  families := []
  executions := [{ execution_id := "E1", name := "Exec 1", description := "", workflow := 0,
                   branch := 0, families := [], family_data_config := [],
                   status := Status.PENDING, current_step := "", current_step_index := 0,
                   parent_execution := none, branch_label := "" }]
  step_executions := []
  data_selections := []
  events := []
  registry := []
  records := []
  now := 7

/-- Database whose execution is associated to a family with no members and no
configured retrieval method — the corner `can_execute` does not check. -/
def depGateDB : DB where
  workflows := []
  branches := []
  families := [{ family_id := "famE", members := [] }]
  executions := [{ execution_id := "e", name := "", description := "", workflow := 0, branch := 0,
                   families := [0], family_data_config := [], status := Status.PENDING,
                   current_step := "", current_step_index := 0, parent_execution := none,
                   branch_label := "" }]
  step_executions := []
  data_selections := []
  events := []
  registry := []
  records := []
  now := 0

/-- A step definition requiring `LogPData`, as `NeedsLogPStep` in the tests. -/
def needsLogPStep : StepDef :=
  { step_id := "needs_logp", name := "Needs LogP", description := "Requires logp data",
    order := 0, required_data_classes := ["LogPData"] }

/-- An unfrozen molecular-data row used by the freeze-invariant witness. -/
def sampleRecord : MolecularData :=
  { molecule := 0, property_name := "logp", value_json := "", native_type := "",
    is_frozen := false, frozen_at := none, frozen_by := none }

/-- A ledger entry matching `sampleSelDB`, selecting `LogPData` pk 7 for
molecule 0 / property `logp` on (execution 0, branch 0). -/
def sampleSel : DataSelection :=
  { execution := 0, branch := 0, molecule := 0, property_name := "logp",
    data_class := "LogPData", data_id := 7, provider_execution := none,
    selected_at := 50, selected_by := none }

/-- The witness database for selection resolution: `sampleDB` with one ledger
entry (`sampleSel`) present. -/
def sampleSelDB : DB :=
  { sampleDB with data_selections := [sampleSel] }

end CadmaFlow
namespace CadmaFlow

/-! Frame lemmas for the engine operations. -/

theorem upsertSelection_frame (db : DB) (i : Nat) (mol : Molecule) (P : String)
    (inst : DataInstance) (u : Option Nat) :
    ((upsertSelection db i mol P inst u).1).executions = db.executions ∧
    ((upsertSelection db i mol P inst u).1).step_executions = db.step_executions ∧
    ((upsertSelection db i mol P inst u).1).branches = db.branches ∧
    ((upsertSelection db i mol P inst u).1).workflows = db.workflows ∧
    ((upsertSelection db i mol P inst u).1).events = db.events ∧
    ((upsertSelection db i mol P inst u).1).records = db.records ∧
    ((upsertSelection db i mol P inst u).1).registry = db.registry := by
  unfold upsertSelection
  split <;> simp

theorem impactedExists_of_step_eq {db db' : DB} (h : db'.step_executions = db.step_executions)
    (i : Nat) (P : String) : impactedExists db' i P = impactedExists db i P := by
  simp [impactedExists, h]

theorem cloneSelections_frame (e b : Nat) :
    ∀ (l : List DataSelection) (db : DB),
      (cloneSelections e b db l).executions = db.executions ∧
      (cloneSelections e b db l).step_executions = db.step_executions ∧
      (cloneSelections e b db l).branches = db.branches ∧
      (cloneSelections e b db l).workflows = db.workflows ∧
      (cloneSelections e b db l).events = db.events ∧
      (cloneSelections e b db l).records = db.records ∧
      (cloneSelections e b db l).registry = db.registry := by
  intro l
  induction l with
  | nil => intro db; simp [cloneSelections]
  | cons s ss ih =>
    intro db
    rw [cloneSelections]
    exact ih _

theorem cloneSelections_data (e b : Nat) :
    ∀ (l : List DataSelection) (db : DB),
      (cloneSelections e b db l).data_selections
        = db.data_selections ++ clonedSelList e b db.now l := by
  intro l
  induction l with
  | nil => intro db; simp [cloneSelections, clonedSelList]
  | cons s ss ih =>
    intro db
    rw [cloneSelections, ih, clonedSelList]
    simp

end CadmaFlow

namespace CadmaFlow

@[simp] theorem upsert_executions (db : DB) (i : Nat) (mol : Molecule) (P : String)
    (inst : DataInstance) (u : Option Nat) :
    ((upsertSelection db i mol P inst u).1).executions = db.executions :=
  (upsertSelection_frame db i mol P inst u).1

@[simp] theorem upsert_step_executions (db : DB) (i : Nat) (mol : Molecule) (P : String)
    (inst : DataInstance) (u : Option Nat) :
    ((upsertSelection db i mol P inst u).1).step_executions = db.step_executions :=
  (upsertSelection_frame db i mol P inst u).2.1

@[simp] theorem upsert_branches (db : DB) (i : Nat) (mol : Molecule) (P : String)
    (inst : DataInstance) (u : Option Nat) :
    ((upsertSelection db i mol P inst u).1).branches = db.branches :=
  (upsertSelection_frame db i mol P inst u).2.2.1

@[simp] theorem cloneSelections_executions (e b : Nat) (l : List DataSelection) (db : DB) :
    (cloneSelections e b db l).executions = db.executions :=
  (cloneSelections_frame e b l db).1

@[simp] theorem cloneSelections_step_executions (e b : Nat) (l : List DataSelection) (db : DB) :
    (cloneSelections e b db l).step_executions = db.step_executions :=
  (cloneSelections_frame e b l db).2.1

@[simp] theorem cloneSelections_branches (e b : Nat) (l : List DataSelection) (db : DB) :
    (cloneSelections e b db l).branches = db.branches :=
  (cloneSelections_frame e b l db).2.2.1

@[simp] theorem cloneSelections_events (e b : Nat) (l : List DataSelection) (db : DB) :
    (cloneSelections e b db l).events = db.events :=
  (cloneSelections_frame e b l db).2.2.2.2.1

theorem logEvent_mem (db : DB) (i : Nat) (ty : String) (d : JsonObj) :
    ∃ e ∈ (logEvent db i ty d).events, e.execution = i ∧ e.event_type = ty :=
  ⟨{ execution := i, event_type := ty, details := d, created_at := db.now },
   by simp [logEvent], rfl, rfl⟩

theorem autoFork_pos (db : DB) (i : Nat) (P : String) (h : impactedExists db i P = true) :
    ∃ nb c,
      (autoForkIfImpactsCompletedSteps db i P).branches = db.branches ++ [nb] ∧
      (autoForkIfImpactsCompletedSteps db i P).executions = db.executions ++ [c] ∧
      c.parent_execution = some i ∧
      ∃ e ∈ (autoForkIfImpactsCompletedSteps db i P).events,
        e.execution = i ∧ e.event_type = "AUTO_FORK" := by
  unfold autoForkIfImpactsCompletedSteps
  simp only [h, if_true]
  exact ⟨_, _, by simp [branchFork, forkExecution, logEvent]; rfl,
               by simp [branchFork, forkExecution, logEvent]; rfl,
               rfl, logEvent_mem _ _ _ _⟩

theorem autoFork_neg (db : DB) (i : Nat) (P : String) (h : impactedExists db i P = false) :
    autoForkIfImpactsCompletedSteps db i P = db := by
  unfold autoForkIfImpactsCompletedSteps
  simp [h]

theorem mem_updateFirst_of_neg {α : Type} {p : α → Bool} {f : α → α} :
    ∀ {l : List α} {s : α}, s ∈ l → p s = false → s ∈ updateFirst p f l := by
  intro l
  induction l with
  | nil => intro s h; cases h
  | cons x xs ih =>
    intro s h hp
    rw [updateFirst]
    rcases List.mem_cons.mp h with rfl | h
    · rw [if_neg (by simp [hp])]
      exact List.mem_cons_self _ _
    · by_cases hx : p x = true
      · rw [if_pos hx]; exact List.mem_cons_of_mem _ h
      · rw [if_neg hx]; exact List.mem_cons_of_mem _ (ih h hp)

theorem upsert_preserves_nonkey (db : DB) (i : Nat) (mol : Molecule) (P : String)
    (inst : DataInstance) (u : Option Nat) :
    ∀ s ∈ db.data_selections, selKey db i mol P s = false →
      s ∈ ((upsertSelection db i mol P inst u).1).data_selections := by
  intro s hs hk
  unfold upsertSelection
  split
  · exact mem_updateFirst_of_neg hs hk
  · exact List.mem_append_left _ hs

theorem clonedSelList_covers (e b : Nat) :
    ∀ (l : List DataSelection) (t : Nat) (s : DataSelection), s ∈ l →
      ∃ c ∈ clonedSelList e b t l, c.execution = e ∧ c.branch = b ∧
        c.molecule = s.molecule ∧ c.property_name = s.property_name ∧
        c.data_class = s.data_class ∧ c.data_id = s.data_id ∧
        c.provider_execution = s.provider_execution ∧ c.selected_by = s.selected_by := by
  intro l
  induction l with
  | nil => intro t s h; cases h
  | cons x xs ih =>
    intro t s h
    rcases List.mem_cons.mp h with rfl | h
    · exact ⟨_, List.mem_cons_self _ _, rfl, rfl, rfl, rfl, rfl, rfl, rfl, rfl⟩
    · obtain ⟨c, hc, hrest⟩ := ih (t + 1) s h
      exact ⟨c, List.mem_cons_of_mem _ hc, hrest⟩

theorem autoFork_pos_data (db : DB) (i : Nat) (P : String)
    (h : impactedExists db i P = true) :
    ∃ t, (autoForkIfImpactsCompletedSteps db i P).data_selections
      = db.data_selections
        ++ clonedSelList db.executions.length db.branches.length t
            (db.data_selections.filter (fun s => s.execution == i)) := by
  unfold autoForkIfImpactsCompletedSteps
  simp only [h, if_true]
  exact ⟨_, by simp [branchFork, forkExecution, logEvent, cloneSelections_data]; rfl⟩

theorem getD_append_lt {α : Type} [Inhabited α] (l l' : List α) (i : Nat)
    (h : i < l.length) : (l ++ l').getD i default = l.getD i default := by
  simp [List.getD, List.getElem?_append, h]

theorem autoFork_steps (db : DB) (i : Nat) (P : String) :
    (autoForkIfImpactsCompletedSteps db i P).step_executions = db.step_executions := by
  unfold autoForkIfImpactsCompletedSteps
  split
  · simp [branchFork, forkExecution, logEvent]
  · rfl

theorem cloneSteps_frame (e : Nat) :
    ∀ (l : List StepExecution) (db : DB),
      (cloneSteps e db l).executions = db.executions ∧
      (cloneSteps e db l).branches = db.branches ∧
      (cloneSteps e db l).workflows = db.workflows ∧
      (cloneSteps e db l).events = db.events ∧
      (cloneSteps e db l).data_selections = db.data_selections := by
  intro l
  induction l with
  | nil => intro db; simp [cloneSteps]
  | cons s ss ih => intro db; rw [cloneSteps]; exact ih _

@[simp] theorem cloneSteps_executions (e : Nat) (l : List StepExecution) (db : DB) :
    (cloneSteps e db l).executions = db.executions := (cloneSteps_frame e l db).1

@[simp] theorem cloneSteps_branches (e : Nat) (l : List StepExecution) (db : DB) :
    (cloneSteps e db l).branches = db.branches := (cloneSteps_frame e l db).2.1

@[simp] theorem cloneSteps_events (e : Nat) (l : List StepExecution) (db : DB) :
    (cloneSteps e db l).events = db.events := (cloneSteps_frame e l db).2.2.2.1

@[simp] theorem cloneSteps_data (e : Nat) (l : List StepExecution) (db : DB) :
    (cloneSteps e db l).data_selections = db.data_selections := (cloneSteps_frame e l db).2.2.2.2

@[simp] theorem cloneSteps_steps (e : Nat) :
    ∀ (l : List StepExecution) (db : DB),
      (cloneSteps e db l).step_executions = db.step_executions ++ clonedStepList e l := by
  intro l
  induction l with
  | nil => intro db; simp [cloneSteps, clonedStepList]
  | cons s ss ih => intro db; rw [cloneSteps, ih, clonedStepList]; simp [clonedStepList]

theorem set_append_length {α : Type} (l : List α) (x y : α) :
    (l ++ [x]).set l.length y = l ++ [y] := by
  induction l with
  | nil => rfl
  | cons a as ih => simp [List.set, ih]

theorem getD_append_length {α : Type} [Inhabited α] (l : List α) (x : α) :
    (l ++ [x]).getD l.length default = x := by
  simp [List.getD, List.getElem?_concat_length]

theorem branchExecution_spec (db : DB) (i : Nat) (bl r : Option String) :
    (branchExecution db i bl r).2 = db.executions.length ∧
    (branchExecution db i bl r).1.executions.length = db.executions.length + 1 ∧
    (branchExecution db i bl r).1.executions.take db.executions.length = db.executions ∧
    ((branchExecution db i bl r).1.executions.getD db.executions.length default).parent_execution
      = some i ∧
    ((branchExecution db i bl r).1.executions.getD db.executions.length default).family_data_config
      = (db.executions.getD i default).family_data_config ∧
    ((branchExecution db i bl r).1.executions.getD db.executions.length default).current_step_index
      = (db.executions.getD i default).current_step_index ∧
    (branchExecution db i bl r).1.step_executions
      = db.step_executions ++ clonedStepList db.executions.length
          (sortByOrder (db.step_executions.filter (fun se =>
            se.execution == i && se.status == Status.COMPLETED))) ∧
    (branchExecution db i bl r).1.data_selections = db.data_selections ∧
    ∃ e ∈ (branchExecution db i bl r).1.events,
      e.execution = i ∧ e.event_type = "EXEC_BRANCH_CREATED" := by
  refine ⟨?_, ?_, ?_, ?_, ?_, ?_, ?_, ?_, ?_⟩
  · unfold branchExecution; simp [workflowBranch, branchFork]
  · unfold branchExecution
    simp [workflowBranch, branchFork, logEvent, getD_append_length, set_append_length]
  · unfold branchExecution
    simp [workflowBranch, branchFork, logEvent, getD_append_length, set_append_length,
      List.take_left]
  · unfold branchExecution
    simp [workflowBranch, branchFork, logEvent, getD_append_length, set_append_length]
  · unfold branchExecution
    simp [workflowBranch, branchFork, logEvent, getD_append_length, set_append_length]
  · unfold branchExecution
    simp [workflowBranch, branchFork, logEvent, getD_append_length, set_append_length]
  · unfold branchExecution; simp [workflowBranch, branchFork, logEvent]
  · unfold branchExecution; simp [workflowBranch, branchFork, logEvent]
  · unfold branchExecution; exact logEvent_mem _ _ _ _

theorem clonedStepList_execution (e : Nat) (l : List StepExecution) :
    ∀ x ∈ clonedStepList e l, x.execution = e := by
  intro x hx
  rw [clonedStepList] at hx
  obtain ⟨se, _, rfl⟩ := List.mem_map.mp hx
  rfl

theorem getD_set_self {α : Type} [Inhabited α] :
    ∀ (l : List α) (n : Nat) (a : α), n < l.length →
      (l.set n a).getD n default = a := by
  intro l
  induction l with
  | nil => intro n a h; simp at h
  | cons x xs ih =>
    intro n a h
    cases n with
    | zero => rfl
    | succ m => exact ih m a (by simpa using h)

theorem filter_del_all (l : List StepExecution) (e : Nat) (N : Int)
    (h : ∀ x ∈ l, x.execution ≠ e) :
    l.filter (fun se => !(se.execution == e && decide (N < se.order))) = l := by
  rw [List.filter_eq_self]
  intro x hx
  simp [h x hx]

theorem filter_exec_nil (l : List StepExecution) (e : Nat)
    (h : ∀ x ∈ l, x.execution ≠ e) :
    l.filter (fun se => se.execution == e) = [] := by
  rw [List.filter_eq_nil_iff]
  intro x hx
  simp [h x hx]

theorem clonedStepList_del (e : Nat) (l : List StepExecution) (N : Int) :
    (clonedStepList e l).filter (fun se => !(se.execution == e && decide (N < se.order)))
    = clonedStepList e (l.filter (fun se => decide (se.order ≤ N))) := by
  unfold clonedStepList
  rw [List.filter_map]
  congr 1
  apply List.filter_congr
  intro x hx
  simp [Function.comp, ← decide_not, decide_eq_decide]

theorem filter_exec_self_cloned (e : Nat) (l : List StepExecution) :
    (clonedStepList e l).filter (fun se => se.execution == e) = clonedStepList e l := by
  rw [List.filter_eq_self]
  intro x hx
  simp [clonedStepList_execution e l x hx]

theorem insertByOrder_perm (se : StepExecution) (l : List StepExecution) :
    (insertByOrder se l).Perm (se :: l) := by
  induction l with
  | nil => exact List.Perm.refl _
  | cons x xs ih =>
    rw [insertByOrder]
    split
    · exact List.Perm.refl _
    · exact (ih.cons x).trans (List.Perm.swap se x xs)

theorem sortByOrder_perm (l : List StepExecution) : (sortByOrder l).Perm l := by
  induction l with
  | nil => exact List.Perm.refl _
  | cons x xs ih => exact (insertByOrder_perm x (sortByOrder xs)).trans (ih.cons x)

theorem rewindTo_proj (db : DB) (i : Nat) (N : Int) :
    (rewindTo db i N).2 = (branchExecution db i (some ("rewind-to-" ++ toString N)) none).2 ∧
    (rewindTo db i N).1.step_executions
      = (branchExecution db i (some ("rewind-to-" ++ toString N)) none).1.step_executions.filter
          (fun se =>
            !(se.execution == (branchExecution db i (some ("rewind-to-" ++ toString N)) none).2
              && decide (N < se.order))) ∧
    (rewindTo db i N).1.executions
      = (branchExecution db i (some ("rewind-to-" ++ toString N)) none).1.executions.set
          (branchExecution db i (some ("rewind-to-" ++ toString N)) none).2
          ({ (branchExecution db i (some ("rewind-to-" ++ toString N)) none).1.executions.getD
              (branchExecution db i (some ("rewind-to-" ++ toString N)) none).2 default with
            current_step_index := N + 1 }) ∧
    (rewindTo db i N).1.data_selections
      = (branchExecution db i (some ("rewind-to-" ++ toString N)) none).1.data_selections ∧
    ∃ e ∈ (rewindTo db i N).1.events, e.execution = i ∧ e.event_type = "REWIND" := by
  refine ⟨rfl, ?_, ?_, ?_, ?_⟩
  · simp [rewindTo, logEvent]
  · simp [rewindTo, logEvent]
  · simp [rewindTo, logEvent]
  · exact logEvent_mem _ _ _ _

theorem getD_set_ne {α : Type} [Inhabited α] (l : List α) (n k : Nat) (a : α) (h : n ≠ k) :
    (l.set n a).getD k default = l.getD k default := by
  simp [List.getD, List.getElem?_set_ne h]

theorem forkExecution_execs (db : DB) (i : Nat) (nid : String) (tb : Nat) :
    ∃ c, (forkExecution db i nid tb).1.executions = db.executions ++ [c] :=
  ⟨_, by simp [forkExecution, logEvent]; rfl⟩

theorem branchExecution_execs (db : DB) (i : Nat) (bl r : Option String) :
    ∃ c, (branchExecution db i bl r).1.executions = db.executions ++ [c] :=
  ⟨_, by
    unfold branchExecution
    simp [workflowBranch, branchFork, logEvent, getD_append_length, set_append_length]
    rfl⟩

theorem selectPropertyVariant_row (db : DB) (i : Nat) (mol : Molecule) (P : String)
    (inst : DataInstance) (u : Option Nat) (k : Nat) (hk : k < db.executions.length) :
    (selectPropertyVariant db i mol P inst u).executions.getD k default
      = db.executions.getD k default := by
  have key : selectPropertyVariant db i mol P inst u
      = autoForkIfImpactsCompletedSteps (logEvent (upsertSelection db i mol P inst u).1 i
          "DATA_SELECTION_CHANGED"
          [("molecule", mol.inchikey), ("property", P), ("data_class", inst.className),
           ("data_id", toString inst.data_id),
           ("created", toString (upsertSelection db i mol P inst u).2)]) i P := rfl
  rw [key]
  set db2 := logEvent (upsertSelection db i mol P inst u).1 i
      "DATA_SELECTION_CHANGED"
      [("molecule", mol.inchikey), ("property", P), ("data_class", inst.className),
       ("data_id", toString inst.data_id),
       ("created", toString (upsertSelection db i mol P inst u).2)] with hdb2
  have hex2 : db2.executions = db.executions := by rw [hdb2]; simp [logEvent]
  cases himp : impactedExists db2 i P with
  | true =>
    obtain ⟨nb, c, hb, he, hc, hev⟩ := autoFork_pos db2 i P himp
    rw [he, hex2]
    exact getD_append_lt _ _ _ hk
  | false =>
    rw [autoFork_neg db2 i P himp, hex2]

theorem hexVal_hexDigitChar : ∀ d < 16, hexVal (hexDigitChar d) = some d := by decide

theorem parseHex4_toHex4 (n : Nat) (h : n < 65536) :
    parseHex4 (hexDigitChar (n / 4096 % 16)) (hexDigitChar (n / 256 % 16))
      (hexDigitChar (n / 16 % 16)) (hexDigitChar (n % 16)) = some n := by
  unfold parseHex4
  rw [hexVal_hexDigitChar _ (Nat.mod_lt _ (by omega)),
      hexVal_hexDigitChar _ (Nat.mod_lt _ (by omega)),
      hexVal_hexDigitChar _ (Nat.mod_lt _ (by omega)),
      hexVal_hexDigitChar _ (Nat.mod_lt _ (by omega))]
  simp only [Option.some.injEq]
  omega

theorem parseBody_literal (c : Char) (t : List Char) (h1 : ¬(c = '"')) (h2 : ¬(c = '\\')) :
    parseBody (c :: t) = (parseBody t).map (fun p => (c :: p.1, p.2)) := by
  rw [parseBody.eq_def]
  split
  · rename_i heq; cases heq
  · rename_i heq; injection heq with ha _; exact absurd ha h1
  · rename_i a b cc d r2 heq; injection heq with ha _; exact absurd ha h2
  · rename_i e1 e2 r2 heq; injection heq with ha _; exact absurd ha h2
  · rename_i cc rest hne1 hne2 hne3 heq
    injection heq with ha hb
    subst ha
    subst hb
    cases parseBody t with
    | none => rfl
    | some p => rfl

theorem parseBody_simple_escape (e c : Char) (t : List Char)
    (he : simpleUnescape e = some c) (hne : ¬(e = 'u')) :
    parseBody ('\\' :: e :: t) = (parseBody t).map (fun p => (c :: p.1, p.2)) := by
  rw [parseBody.eq_def]
  split
  · rename_i heq; cases heq
  · rename_i heq; injection heq with ha _; exact absurd ha (by decide)
  · rename_i a b cc d r2 heq
    injection heq with _ hrest
    injection hrest with hu _
    exact absurd hu hne
  · rename_i e1 e2 r2 heq
    injection heq with _ hrest
    injection hrest with ha hb
    subst ha
    subst hb
    rw [he]
    cases parseBody t with
    | none => rfl
    | some p => rfl
  · rename_i cc rest hne1 hne2 hne3 heq
    injection heq with ha hb
    exact absurd (hne3 e t ha.symm hb.symm) (fun f => f)

theorem parseBody_u_escape (n : Nat) (t : List Char) (hlt : n < 65536)
    (hval : n < 55296 ∨ 57343 < n) :
    parseBody ('\\' :: 'u' :: (toHex4 n ++ t))
      = (parseBody t).map (fun p => (Char.ofNat n :: p.1, p.2)) := by
  rw [toHex4, List.cons_append, List.cons_append, List.cons_append, List.cons_append,
    List.nil_append]
  rw [parseBody.eq_def]
  split
  · rename_i heq; cases heq
  · rename_i heq; injection heq with ha _; exact absurd ha (by decide)
  · rename_i a b cc d r2 heq
    injection heq with _ hrest
    injection hrest with _ hrest
    injection hrest with ha hrest
    injection hrest with hb hrest
    injection hrest with hcc hrest
    injection hrest with hd hrest
    subst ha; subst hb; subst hcc; subst hd; subst hrest
    rw [parseHex4_toHex4 n hlt]
    split
    · rename_i heq2; cases heq2
    · rename_i n2 heq2
      injection heq2 with hn2
      subst hn2
      rw [if_neg (by simp; omega), if_neg (by simp; omega)]
      cases parseBody t with
      | none => rfl
      | some p => rfl
  · rename_i e1 e2 r2 heq
    injection heq with _ hrest
    injection hrest with ha hb
    exact absurd (r2 (hexDigitChar (n / 4096 % 16)) (hexDigitChar (n / 256 % 16))
      (hexDigitChar (n / 16 % 16)) (hexDigitChar (n % 16)) t ha.symm hb.symm) (fun f => f)
  · rename_i cc rest hne1 hne2 hne3 heq
    injection heq with ha hb
    exact absurd (hne3 'u' (hexDigitChar (n / 4096 % 16) :: hexDigitChar (n / 256 % 16)
      :: hexDigitChar (n / 16 % 16) :: hexDigitChar (n % 16) :: t) ha.symm hb.symm) (fun f => f)

theorem parseBody_surrogate (m : Nat) (t : List Char) (hm : m < 1048576) :
    parseBody ('\\' :: 'u' :: (toHex4 (55296 + m / 1024)
        ++ ('\\' :: 'u' :: (toHex4 (56320 + m % 1024) ++ t))))
      = (parseBody t).map (fun p => (Char.ofNat (65536 + m) :: p.1, p.2)) := by
  have hdiv : m / 1024 < 1024 := by omega
  have hmod : m % 1024 < 1024 := by omega
  rw [toHex4, toHex4]
  simp only [List.cons_append, List.nil_append]
  rw [parseBody.eq_def]
  split
  · rename_i heq; cases heq
  · rename_i heq; injection heq with ha _; exact absurd ha (by decide)
  · rename_i a b cc d r2 heq
    injection heq with _ hrest
    injection hrest with _ hrest
    injection hrest with ha hrest
    injection hrest with hb hrest
    injection hrest with hcc hrest
    injection hrest with hd hrest
    subst ha; subst hb; subst hcc; subst hd; subst hrest
    rw [parseHex4_toHex4 (55296 + m / 1024) (by omega)]
    split
    · rename_i heq2; cases heq2
    · rename_i n1 heq2
      injection heq2 with hn1
      subst hn1
      rw [if_pos (by simp; omega)]
      split
      · rename_i e f g h rest3 heq3
        injection heq3 with _ hrest3
        injection hrest3 with _ hrest3
        injection hrest3 with he hrest3
        injection hrest3 with hf hrest3
        injection hrest3 with hg hrest3
        injection hrest3 with hh hrest3
        subst he; subst hf; subst hg; subst hh; subst hrest3
        rw [parseHex4_toHex4 (56320 + m % 1024) (by omega)]
        split
        · rename_i heq4; cases heq4
        · rename_i n2 heq4
          injection heq4 with hn2
          subst hn2
          rw [if_pos (by simp; omega)]
          rw [show 65536 + (55296 + m / 1024 - 55296) * 1024 + (56320 + m % 1024 - 56320)
              = 65536 + m from by omega]
          cases parseBody t with
          | none => rfl
          | some p => rfl
      · rename_i x1 x2 heq3
        exact (heq3 _ _ _ _ t rfl).elim
  · rename_i e1 e2 r2 heq
    injection heq with _ hrest
    injection hrest with ha hb
    exact absurd (r2 (hexDigitChar ((55296 + m / 1024) / 4096 % 16))
      (hexDigitChar ((55296 + m / 1024) / 256 % 16))
      (hexDigitChar ((55296 + m / 1024) / 16 % 16))
      (hexDigitChar ((55296 + m / 1024) % 16))
      ('\\' :: 'u' :: hexDigitChar ((56320 + m % 1024) / 4096 % 16)
        :: hexDigitChar ((56320 + m % 1024) / 256 % 16)
        :: hexDigitChar ((56320 + m % 1024) / 16 % 16)
        :: hexDigitChar ((56320 + m % 1024) % 16) :: t) ha.symm hb.symm) (fun f => f)
  · rename_i cc rest hne1 hne2 hne3 heq
    injection heq with ha hb
    exact absurd (hne3 'u' (hexDigitChar ((55296 + m / 1024) / 4096 % 16)
      :: hexDigitChar ((55296 + m / 1024) / 256 % 16)
      :: hexDigitChar ((55296 + m / 1024) / 16 % 16)
      :: hexDigitChar ((55296 + m / 1024) % 16)
      :: '\\' :: 'u' :: hexDigitChar ((56320 + m % 1024) / 4096 % 16)
      :: hexDigitChar ((56320 + m % 1024) / 256 % 16)
      :: hexDigitChar ((56320 + m % 1024) / 16 % 16)
      :: hexDigitChar ((56320 + m % 1024) % 16) :: t) ha.symm hb.symm) (fun f => f)

theorem parseBody_escapeChar (c : Char) (tail : List Char) :
    parseBody (escapeChar c ++ tail) = (parseBody tail).map (fun p => (c :: p.1, p.2)) := by
  unfold escapeChar
  by_cases h1 : c = '"'
  · rw [if_pos (by simp [h1] : (c == '"') = true), h1]
    exact parseBody_simple_escape '"' '"' tail rfl (by decide)
  rw [if_neg (by simp [h1] : ¬(c == '"') = true)]
  by_cases h2 : c = '\\'
  · rw [if_pos (by simp [h2] : (c == '\\') = true), h2]
    exact parseBody_simple_escape '\\' '\\' tail rfl (by decide)
  rw [if_neg (by simp [h2] : ¬(c == '\\') = true)]
  by_cases h3 : c = '\n'
  · rw [if_pos (by simp [h3] : (c == '\n') = true), h3]
    exact parseBody_simple_escape 'n' '\n' tail rfl (by decide)
  rw [if_neg (by simp [h3] : ¬(c == '\n') = true)]
  by_cases h4 : c = '\r'
  · rw [if_pos (by simp [h4] : (c == '\r') = true), h4]
    exact parseBody_simple_escape 'r' '\r' tail rfl (by decide)
  rw [if_neg (by simp [h4] : ¬(c == '\r') = true)]
  by_cases h5 : c = '\t'
  · rw [if_pos (by simp [h5] : (c == '\t') = true), h5]
    exact parseBody_simple_escape 't' '\t' tail rfl (by decide)
  rw [if_neg (by simp [h5] : ¬(c == '\t') = true)]
  by_cases h6 : c = Char.ofNat 8
  · rw [if_pos (by simp [h6] : (c == Char.ofNat 8) = true), h6]
    exact parseBody_simple_escape 'b' (Char.ofNat 8) tail rfl (by decide)
  rw [if_neg (by simp [h6] : ¬(c == Char.ofNat 8) = true)]
  by_cases h7 : c = Char.ofNat 12
  · rw [if_pos (by simp [h7] : (c == Char.ofNat 12) = true), h7]
    exact parseBody_simple_escape 'f' (Char.ofNat 12) tail rfl (by decide)
  rw [if_neg (by simp [h7] : ¬(c == Char.ofNat 12) = true)]
  by_cases h8 : 32 ≤ c.toNat ∧ c.toNat ≤ 126
  · rw [if_pos (by simp [h8.1, h8.2] :
      (decide (32 ≤ c.toNat) && decide (c.toNat ≤ 126)) = true)]
    rw [List.cons_append, List.nil_append]
    exact parseBody_literal c tail h1 h2
  rw [if_neg (by
    simp only [Bool.and_eq_true, decide_eq_true_eq]
    exact h8)]
  have hvalid : c.toNat < 55296 ∨ (57343 < c.toNat ∧ c.toNat < 1114112) := c.valid
  by_cases h9 : c.toNat < 65536
  · rw [if_pos h9]
    simp only [List.cons_append, List.append_assoc]
    rw [parseBody_u_escape c.toNat tail h9 (by omega), Char.ofNat_toNat]
  · rw [if_neg h9]
    simp only [List.cons_append, List.append_assoc]
    rw [parseBody_surrogate (c.toNat - 65536) tail (by omega)]
    rw [show 65536 + (c.toNat - 65536) = c.toNat from by omega, Char.ofNat_toNat]

theorem parseBody_escapeList : ∀ (cs rest : List Char),
    parseBody (escapeList cs ++ '"' :: rest) = some (cs, rest) := by
  intro cs
  induction cs with
  | nil =>
    intro rest
    rw [escapeList, List.nil_append]
    simp [parseBody]
  | cons c cs ih =>
    intro rest
    rw [escapeList, List.append_assoc, parseBody_escapeChar, ih]
    rfl

theorem jsonLoadsString_jsonDumpsString (s : String) :
    jsonLoadsString (jsonDumpsString s) = Except.ok s := by
  unfold jsonDumpsString jsonLoadsString
  show (match ('"' :: (escapeList s.data ++ ['"'])) with
    | '"' :: rest =>
      match parseBody rest with
      | some (cs, []) => Except.ok (String.mk cs)
      | _ => Except.error "Invalid JSON string"
    | _ => Except.error "Expecting value") = Except.ok s
  rw [show (escapeList s.data ++ ['"']) = escapeList s.data ++ '"' :: [] from rfl]
  simp only [parseBody_escapeList]

theorem jsonLoadsFloat_jsonDumpsFloat (f : PyFloat) (h : f.wf = true) :
    jsonLoadsFloat (jsonDumpsFloat f) = Except.ok f := by
  cases f with
  | nan => rfl
  | inf => rfl
  | ninf => rfl
  | finite lit =>
    rw [PyFloat.wf] at h
    unfold jsonDumpsFloat jsonLoadsFloat
    have h1 : ¬(lit == "NaN") = true := by
      by_cases he : lit = "NaN"
      · subst he; exact absurd h (by decide)
      · simp [he]
    have h2 : ¬(lit == "Infinity") = true := by
      by_cases he : lit = "Infinity"
      · subst he; exact absurd h (by decide)
      · simp [he]
    have h3 : ¬(lit == "-Infinity") = true := by
      by_cases he : lit = "-Infinity"
      · subst he; exact absurd h (by decide)
      · simp [he]
    rw [if_neg h1, if_neg h2, if_neg h3, if_pos h]

theorem floatImpl_roundtrip (f : PyFloat) (h : f.wf = true) :
    floatImpl.deserialize_value (floatImpl.serialize_value (PyVal.float f))
      = Except.ok (PyVal.float f) := by
  show (jsonLoadsFloat (jsonDumpsFloat f)).map PyVal.float = Except.ok (PyVal.float f)
  rw [jsonLoadsFloat_jsonDumpsFloat f h]
  rfl

theorem stringImpl_roundtrip (s : String) :
    stringImpl.deserialize_value (stringImpl.serialize_value (PyVal.str s))
      = Except.ok (PyVal.str s) := by
  show (jsonLoadsString (jsonDumpsString s)).map PyVal.str = Except.ok (PyVal.str s)
  rw [jsonLoadsString_jsonDumpsString s]
  rfl

theorem canExecute_eq_false_iff (db : DB) (i : Nat) (step : StepDef) :
    canExecute db i step = false ↔
      ∃ fIdx ∈ (db.executions.getD i default).families,
        ∃ dc ∈ step.required_data_classes,
          (db.families.getD fIdx default).members ≠ [] ∧
          truthy (famCfgGet (db.executions.getD i default).family_data_config
            (db.families.getD fIdx default).family_id dc) = false := by
  unfold canExecute
  rw [List.all_eq_false]
  constructor
  · rintro ⟨fIdx, hf, hall⟩
    rw [Bool.not_eq_true, List.all_eq_false] at hall
    obtain ⟨dc, hdc, hmem⟩ := hall
    rw [Bool.not_eq_true, List.all_eq_false] at hmem
    obtain ⟨m, hm, hfail⟩ := hmem
    rw [Bool.not_eq_true] at hfail
    exact ⟨fIdx, hf, dc, hdc, (by intro hnil; rw [hnil] at hm; cases hm), hfail⟩
  · rintro ⟨fIdx, hf, dc, hdc, hne, hfail⟩
    refine ⟨fIdx, hf, ?_⟩
    rw [Bool.not_eq_true, List.all_eq_false]
    refine ⟨dc, hdc, ?_⟩
    rw [Bool.not_eq_true, List.all_eq_false]
    obtain ⟨m, hm⟩ := List.exists_mem_of_ne_nil _ hne
    exact ⟨m, hm, by rw [Bool.not_eq_true]; exact hfail⟩

theorem latestSelection_mem : ∀ (l : List DataSelection) (t : DataSelection),
    latestSelection l = some t → t ∈ l := by
  intro l
  induction l with
  | nil => intro t h; cases h
  | cons s ss ih =>
    intro t h
    rw [latestSelection] at h
    split at h
    · injection h with h
      rw [← h]
      exact List.mem_cons_self _ _
    · rename_i u hss
      split at h
      · injection h with h
        rw [← h]
        exact List.mem_cons_of_mem _ (ih u hss)
      · injection h with h
        rw [← h]
        exact List.mem_cons_self _ _

theorem latestSelection_eq_none :
    ∀ (l : List DataSelection), latestSelection l = none → l = [] := by
  intro l h
  cases l with
  | nil => rfl
  | cons s ss =>
    rw [latestSelection] at h
    split at h
    · cases h
    · split at h <;> cases h

theorem latestSelection_max : ∀ (l : List DataSelection) (t : DataSelection),
    latestSelection l = some t → ∀ u ∈ l, u.selected_at ≤ t.selected_at := by
  intro l
  induction l with
  | nil => intro t h; cases h
  | cons s ss ih =>
    intro t h u hu
    rw [latestSelection] at h
    split at h
    · rename_i hss
      injection h with h
      rcases List.mem_cons.mp hu with rfl | hu2
      · rw [← h]
      · rw [latestSelection_eq_none ss hss] at hu2
        cases hu2
    · rename_i w hss
      split at h
      · rename_i hgt
        injection h with h
        rcases List.mem_cons.mp hu with rfl | hu2
        · rw [← h]
          omega
        · rw [← h]
          exact ih w hss u hu2
      · rename_i hgt
        injection h with h
        rcases List.mem_cons.mp hu with rfl | hu2
        · rw [← h]
        · rw [← h]
          have := ih w hss u hu2
          omega

end CadmaFlow

namespace CadmaFlow

/-- C1: calling `select_property_variant(molecule, P, data_instance)` on an
execution that owns at least one COMPLETED `StepExecution` listing `P` in
`input_properties` creates exactly one new `WorkflowBranch` and exactly one
new `WorkflowExecution` (a child of the original) and logs an `AUTO_FORK`
event on the original execution; when no COMPLETED step lists `P`, no new
branch and no new execution is created. -/
theorem select_property_variant_auto_fork (db : DB) (i : Nat) (mol : Molecule)
    (P : String) (inst : DataInstance) (u : Option Nat) :
    (impactedExists db i P = true →
      ∃ nb c,
        (selectPropertyVariant db i mol P inst u).branches = db.branches ++ [nb] ∧
        (selectPropertyVariant db i mol P inst u).executions = db.executions ++ [c] ∧
        c.parent_execution = some i ∧
        ∃ e ∈ (selectPropertyVariant db i mol P inst u).events,
          e.execution = i ∧ e.event_type = "AUTO_FORK") ∧
    (impactedExists db i P = false →
      (selectPropertyVariant db i mol P inst u).branches = db.branches ∧
      (selectPropertyVariant db i mol P inst u).executions = db.executions) := by
  have key : selectPropertyVariant db i mol P inst u
      = autoForkIfImpactsCompletedSteps (logEvent (upsertSelection db i mol P inst u).1 i
          "DATA_SELECTION_CHANGED"
          [("molecule", mol.inchikey), ("property", P), ("data_class", inst.className),
           ("data_id", toString inst.data_id),
           ("created", toString (upsertSelection db i mol P inst u).2)]) i P := rfl
  rw [key]
  set db2 := logEvent (upsertSelection db i mol P inst u).1 i
      "DATA_SELECTION_CHANGED"
      [("molecule", mol.inchikey), ("property", P), ("data_class", inst.className),
       ("data_id", toString inst.data_id),
       ("created", toString (upsertSelection db i mol P inst u).2)] with hdb2
  have hse2 : db2.step_executions = db.step_executions := by
    rw [hdb2]; simp [logEvent]
  have hbr2 : db2.branches = db.branches := by rw [hdb2]; simp [logEvent]
  have hex2 : db2.executions = db.executions := by rw [hdb2]; simp [logEvent]
  constructor
  · intro himp
    have h2 : impactedExists db2 i P = true := by
      rw [impactedExists_of_step_eq hse2]; exact himp
    obtain ⟨nb, c, hb, he, hc, hev⟩ := autoFork_pos db2 i P h2
    exact ⟨nb, c, by rw [hb, hbr2], by rw [he, hex2], hc, hev⟩
  · intro himp
    have h2 : impactedExists db2 i P = false := by
      rw [impactedExists_of_step_eq hse2]; exact himp
    rw [autoFork_neg db2 i P h2]
    exact ⟨hbr2, hex2⟩

/-- C1 witness: the impact hypothesis holds in `sampleDB` for property
`logp`, and the theorem instantiates there. -/
theorem select_property_variant_auto_fork_witness :
    impactedExists sampleDB 0 "logp" = true ∧
    (∃ nb c,
      (selectPropertyVariant sampleDB 0 sampleMol "logp" inst7 none).branches
        = sampleDB.branches ++ [nb] ∧
      (selectPropertyVariant sampleDB 0 sampleMol "logp" inst7 none).executions
        = sampleDB.executions ++ [c] ∧
      c.parent_execution = some 0 ∧
      ∃ e ∈ (selectPropertyVariant sampleDB 0 sampleMol "logp" inst7 none).events,
        e.execution = 0 ∧ e.event_type = "AUTO_FORK") :=
  ⟨by decide,
   (select_property_variant_auto_fork sampleDB 0 sampleMol "logp" inst7 none).1 (by decide)⟩

end CadmaFlow

namespace CadmaFlow

/-- C2: when `select_property_variant` auto-forks, every current ledger entry
of the original execution as of just after the keyed upsert (the upserted
entry included) is cloned onto the new execution/branch pair — the new
indices being `db.executions.length` and `db.branches.length`; the original
execution row, its `StepExecution` rows, and its ledger entries are left
unmodified (entries off the upsert key also survive the upsert itself). -/
theorem auto_fork_clones_selection_ledger (db : DB) (i : Nat) (mol : Molecule) (P : String)
    (inst : DataInstance) (u : Option Nat) (hi : i < db.executions.length)
    (himp : impactedExists db i P = true) :
    ((selectPropertyVariant db i mol P inst u).executions.getD i default
        = db.executions.getD i default) ∧
    (selectPropertyVariant db i mol P inst u).step_executions = db.step_executions ∧
    (∃ t, (selectPropertyVariant db i mol P inst u).data_selections
        = ((upsertSelection db i mol P inst u).1).data_selections
          ++ clonedSelList db.executions.length db.branches.length t
              (((upsertSelection db i mol P inst u).1).data_selections.filter
                (fun s => s.execution == i))) ∧
    (∀ s ∈ ((upsertSelection db i mol P inst u).1).data_selections, s.execution = i →
      ∃ c ∈ (selectPropertyVariant db i mol P inst u).data_selections,
        c.execution = db.executions.length ∧ c.branch = db.branches.length ∧
        c.molecule = s.molecule ∧ c.property_name = s.property_name ∧
        c.data_class = s.data_class ∧ c.data_id = s.data_id ∧
        c.provider_execution = s.provider_execution ∧ c.selected_by = s.selected_by) ∧
    (∀ s ∈ db.data_selections, selKey db i mol P s = false →
      s ∈ (selectPropertyVariant db i mol P inst u).data_selections) := by
  have key : selectPropertyVariant db i mol P inst u
      = autoForkIfImpactsCompletedSteps (logEvent (upsertSelection db i mol P inst u).1 i
          "DATA_SELECTION_CHANGED"
          [("molecule", mol.inchikey), ("property", P), ("data_class", inst.className),
           ("data_id", toString inst.data_id),
           ("created", toString (upsertSelection db i mol P inst u).2)]) i P := rfl
  rw [key]
  set db2 := logEvent (upsertSelection db i mol P inst u).1 i
      "DATA_SELECTION_CHANGED"
      [("molecule", mol.inchikey), ("property", P), ("data_class", inst.className),
       ("data_id", toString inst.data_id),
       ("created", toString (upsertSelection db i mol P inst u).2)] with hdb2
  have hse2 : db2.step_executions = db.step_executions := by rw [hdb2]; simp [logEvent]
  have hex2 : db2.executions = db.executions := by rw [hdb2]; simp [logEvent]
  have hbr2 : db2.branches = db.branches := by rw [hdb2]; simp [logEvent]
  have hds2 : db2.data_selections = ((upsertSelection db i mol P inst u).1).data_selections := by
    rw [hdb2]; simp [logEvent]
  have h2 : impactedExists db2 i P = true := by
    rw [impactedExists_of_step_eq hse2]; exact himp
  obtain ⟨nb, c, hb, he, hc, hev⟩ := autoFork_pos db2 i P h2
  obtain ⟨t, ht⟩ := autoFork_pos_data db2 i P h2
  rw [hds2, hex2, hbr2] at ht
  refine ⟨?_, ?_, ⟨t, ht⟩, ?_, ?_⟩
  · rw [he, hex2]
    exact getD_append_lt _ _ _ hi
  · rw [autoFork_steps, hse2]
  · intro s hs hsi
    have hmem : s ∈ ((upsertSelection db i mol P inst u).1).data_selections.filter
        (fun s => s.execution == i) := by
      rw [List.mem_filter]
      exact ⟨hs, by simp [hsi]⟩
    obtain ⟨cc, hcc, hrest⟩ :=
      clonedSelList_covers db.executions.length db.branches.length _ t s hmem
    exact ⟨cc, by rw [ht]; exact List.mem_append_right _ hcc, hrest⟩
  · intro s hs hk
    rw [ht]
    exact List.mem_append_left _ (upsert_preserves_nonkey db i mol P inst u s hs hk)

/-- C2 witness: the hypotheses hold in `sampleDB` for `logp`, and the theorem
instantiates there. -/
theorem auto_fork_clones_selection_ledger_witness :
    0 < sampleDB.executions.length ∧ impactedExists sampleDB 0 "logp" = true ∧
    (((selectPropertyVariant sampleDB 0 sampleMol "logp" inst7 none).executions.getD 0 default
        = sampleDB.executions.getD 0 default) ∧
     (selectPropertyVariant sampleDB 0 sampleMol "logp" inst7 none).step_executions
        = sampleDB.step_executions ∧
     (∃ t, (selectPropertyVariant sampleDB 0 sampleMol "logp" inst7 none).data_selections
        = ((upsertSelection sampleDB 0 sampleMol "logp" inst7 none).1).data_selections
          ++ clonedSelList sampleDB.executions.length sampleDB.branches.length t
              (((upsertSelection sampleDB 0 sampleMol "logp" inst7 none).1).data_selections.filter
                (fun s => s.execution == 0))) ∧
     (∀ s ∈ ((upsertSelection sampleDB 0 sampleMol "logp" inst7 none).1).data_selections,
        s.execution = 0 →
        ∃ c ∈ (selectPropertyVariant sampleDB 0 sampleMol "logp" inst7 none).data_selections,
          c.execution = sampleDB.executions.length ∧ c.branch = sampleDB.branches.length ∧
          c.molecule = s.molecule ∧ c.property_name = s.property_name ∧
          c.data_class = s.data_class ∧ c.data_id = s.data_id ∧
          c.provider_execution = s.provider_execution ∧ c.selected_by = s.selected_by) ∧
     (∀ s ∈ sampleDB.data_selections, selKey sampleDB 0 sampleMol "logp" s = false →
        s ∈ (selectPropertyVariant sampleDB 0 sampleMol "logp" inst7 none).data_selections)) :=
  ⟨by decide, by decide,
   auto_fork_clones_selection_ledger sampleDB 0 sampleMol "logp" inst7 none
     (by decide) (by decide)⟩

end CadmaFlow

namespace CadmaFlow

/-- C3: on an execution whose COMPLETED steps span `M` distinct orders with
`M > N`, `rewind_to(step_order = N)` returns a new execution (at the fresh
index `db.executions.length`) containing exactly the clones of the COMPLETED
steps with `order ≤ N`, with `current_step_index = N + 1`; the source
execution's `StepExecution` rows are unchanged and a `REWIND` event is
logged on the source. -/
theorem rewind_to_truncation (db : DB) (i : Nat) (N : Int)
    (hi : i < db.executions.length)
    (hwf : ∀ se ∈ db.step_executions, se.execution < db.executions.length)
    (hM : (N : Int) < (((db.step_executions.filter (fun se =>
        se.execution == i && se.status == Status.COMPLETED)).map
          (fun se => se.order)).dedup.length : Int)) :
    (rewindTo db i N).2 = db.executions.length ∧
    ((rewindTo db i N).1.step_executions.filter
        (fun se => se.execution == db.executions.length)).Perm
      (clonedStepList db.executions.length
        (db.step_executions.filter (fun se =>
          se.execution == i && se.status == Status.COMPLETED && decide (se.order ≤ N)))) ∧
    ((rewindTo db i N).1.executions.getD db.executions.length default).current_step_index
      = N + 1 ∧
    (rewindTo db i N).1.step_executions.filter (fun se => se.execution == i)
      = db.step_executions.filter (fun se => se.execution == i) ∧
    ∃ e ∈ (rewindTo db i N).1.events, e.execution = i ∧ e.event_type = "REWIND" := by
  obtain ⟨h2, hsteps, hexecs, hds, hev⟩ := rewindTo_proj db i N
  obtain ⟨b2, blen, btake, bparent, bcfg, bcsi, bsteps, bds, bev⟩ :=
    branchExecution_spec db i (some ("rewind-to-" ++ toString N)) none
  have hne : ∀ x ∈ db.step_executions, x.execution ≠ db.executions.length := by
    intro x hx
    exact Nat.ne_of_lt (hwf x hx)
  have hneI : ∀ x ∈ clonedStepList db.executions.length
      ((sortByOrder (db.step_executions.filter (fun se =>
        se.execution == i && se.status == Status.COMPLETED))).filter
          (fun se => decide (se.order ≤ N))), x.execution ≠ i := by
    intro x hx
    rw [clonedStepList_execution _ _ x hx]
    exact (Nat.ne_of_lt hi).symm
  refine ⟨h2.trans b2, ?_, ?_, ?_, hev⟩
  · rw [hsteps, b2, bsteps, List.filter_append, filter_del_all _ _ _ hne,
      clonedStepList_del, List.filter_append, filter_exec_nil _ _ hne,
      filter_exec_self_cloned, List.nil_append]
    have hcomm : db.step_executions.filter (fun se =>
        se.execution == i && se.status == Status.COMPLETED && decide (se.order ≤ N))
      = (db.step_executions.filter (fun se =>
          se.execution == i && se.status == Status.COMPLETED)).filter
            (fun se => decide (se.order ≤ N)) := by
      rw [List.filter_filter]
      apply List.filter_congr
      intro x hx
      exact (Bool.and_comm _ _).symm
    rw [hcomm]
    unfold clonedStepList
    exact ((sortByOrder_perm _).filter _).map _
  · rw [hexecs, b2]
    rw [getD_set_self _ _ _ (by rw [blen]; omega)]
  · rw [hsteps, b2, bsteps, List.filter_append, filter_del_all _ _ _ hne,
      clonedStepList_del, List.filter_append, filter_exec_nil _ _ hneI, List.append_nil]

/-- C3 witness: `sampleDB`'s execution 0 has one COMPLETED step at order 0
(so `M = 1 > N = 0`), and the theorem instantiates there. -/
theorem rewind_to_truncation_witness :
    0 < sampleDB.executions.length ∧
    (∀ se ∈ sampleDB.step_executions, se.execution < sampleDB.executions.length) ∧
    ((0 : Int) < (((sampleDB.step_executions.filter (fun se =>
        se.execution == 0 && se.status == Status.COMPLETED)).map
          (fun se => se.order)).dedup.length : Int)) ∧
    ((rewindTo sampleDB 0 0).2 = sampleDB.executions.length ∧
     ((rewindTo sampleDB 0 0).1.step_executions.filter
        (fun se => se.execution == sampleDB.executions.length)).Perm
      (clonedStepList sampleDB.executions.length
        (sampleDB.step_executions.filter (fun se =>
          se.execution == 0 && se.status == Status.COMPLETED && decide (se.order ≤ (0 : Int))))) ∧
     ((rewindTo sampleDB 0 0).1.executions.getD
        sampleDB.executions.length default).current_step_index = (0 : Int) + 1 ∧
     (rewindTo sampleDB 0 0).1.step_executions.filter (fun se => se.execution == 0)
      = sampleDB.step_executions.filter (fun se => se.execution == 0) ∧
     ∃ e ∈ (rewindTo sampleDB 0 0).1.events, e.execution = 0 ∧ e.event_type = "REWIND") :=
  ⟨by decide, by decide, by decide,
   rewind_to_truncation sampleDB 0 0 (by decide) (by decide) (by decide)⟩

end CadmaFlow

namespace CadmaFlow

/-- C4: for the repository's concrete molecular-data types (the float-valued
and string-valued QSAR bases), once `freeze()` has been called every
subsequent `set_value(v)` call fails with the `Immutable` error (`RuntimeError`
in the source) for any value `v`, well-typed or not, and `get_value()` still
succeeds and returns the last value set before freezing. -/
theorem molecular_data_freeze_invariant (impl : DataTypeImpl) (r r1 : MolecularData)
    (v0 : PyVal) (user : Option Nat) (t : Nat)
    (himpl : impl = floatImpl ∨ impl = stringImpl)
    (hwf : pyValWf v0 = true)
    (hset : setValue impl r v0 = Except.ok r1) :
    (∀ v : PyVal, setValue impl (freezeData r1 user t) v
      = Except.error (PyErr.runtimeError "No se puede modificar un dato congelado")) ∧
    getValue impl (freezeData r1 user t) = Except.ok v0 := by
  refine ⟨fun v => rfl, ?_⟩
  unfold setValue at hset
  by_cases hf : r.is_frozen
  · rw [if_pos hf] at hset
    cases hset
  rw [if_neg hf] at hset
  rcases himpl with rfl | rfl
  · cases v0 with
    | float f =>
      simp only [floatImpl] at hset
      injection hset with h1
      subst h1
      unfold getValue freezeData
      simp only [floatImpl]
      rw [show (jsonLoadsFloat (jsonDumpsFloat f)).map PyVal.float
          = Except.ok (PyVal.float f) from by rw [jsonLoadsFloat_jsonDumpsFloat f hwf]; rfl]
    | str s => cases hset
    | other ty => cases hset
  · cases v0 with
    | float f => cases hset
    | str s =>
      simp only [stringImpl] at hset
      injection hset with h1
      subst h1
      unfold getValue freezeData
      simp only [stringImpl]
      rw [show (jsonLoadsString (jsonDumpsString s)).map PyVal.str
          = Except.ok (PyVal.str s) from by rw [jsonLoadsString_jsonDumpsString s]; rfl]
    | other ty => cases hset

/-- C4 witness: the hypotheses hold for `LogPData`'s float contract on
`sampleRecord` with value `1.0`, and the theorem instantiates there. -/
theorem molecular_data_freeze_invariant_witness :
    (floatImpl = floatImpl ∨ floatImpl = stringImpl) ∧
    pyValWf (PyVal.float (PyFloat.finite "1.0")) = true ∧
    setValue floatImpl sampleRecord (PyVal.float (PyFloat.finite "1.0"))
      = Except.ok ({ sampleRecord with value_json := "1.0", native_type := "FLOAT" }) ∧
    ((∀ v : PyVal, setValue floatImpl (freezeData
          ({ sampleRecord with value_json := "1.0", native_type := "FLOAT" }) none 5) v
        = Except.error (PyErr.runtimeError "No se puede modificar un dato congelado")) ∧
      getValue floatImpl (freezeData
          ({ sampleRecord with value_json := "1.0", native_type := "FLOAT" }) none 5)
        = Except.ok (PyVal.float (PyFloat.finite "1.0"))) :=
  ⟨Or.inl rfl, by decide, rfl,
   molecular_data_freeze_invariant floatImpl sampleRecord
     ({ sampleRecord with value_json := "1.0", native_type := "FLOAT" })
     (PyVal.float (PyFloat.finite "1.0")) none 5 (Or.inl rfl) (by decide) rfl⟩

/-- C5 counterexample: the claim as stated — `deserialize(serialize(v)) == v`
for *every* value of the native type — fails at `v = float('nan')`:
`json.dumps` writes `NaN`, `json.loads` parses it back to a NaN, and Python's
`==` reports NaN unequal to itself, so the round-trip equality test is false
at that value. -/
theorem serialize_roundtrip_nan_counterexample :
    floatImpl.deserialize_value (floatImpl.serialize_value (PyVal.float PyFloat.nan))
      = Except.ok (PyVal.float PyFloat.nan) ∧
    pyFloatEq PyFloat.nan PyFloat.nan = false := ⟨rfl, rfl⟩

/-- C5 amended: `deserialize_value(serialize_value(v))` returns the same
datum as `v` for every value of the native type (NaN round-trips to NaN),
and the result compares `==`-equal to `v` for every value except NaN; for
the string-valued types the round-trip is exact for every string. -/
theorem serialize_roundtrip_amended (f : PyFloat) (s : String) (hwf : f.wf = true) :
    floatImpl.deserialize_value (floatImpl.serialize_value (PyVal.float f))
      = Except.ok (PyVal.float f) ∧
    (f ≠ PyFloat.nan → pyFloatEq f f = true) ∧
    stringImpl.deserialize_value (stringImpl.serialize_value (PyVal.str s))
      = Except.ok (PyVal.str s) := by
  refine ⟨floatImpl_roundtrip f hwf, ?_, stringImpl_roundtrip s⟩
  intro hne
  cases f with
  | nan => exact absurd rfl hne
  | inf => rfl
  | ninf => rfl
  | finite lit => simp [pyFloatEq]

/-- C5 witness: the well-formedness hypothesis holds for the float `1.5`,
and the amended theorem instantiates there (string side: a non-ASCII label). -/
theorem serialize_roundtrip_amended_witness :
    PyFloat.wf (PyFloat.finite "1.5") = true ∧
    (floatImpl.deserialize_value (floatImpl.serialize_value
          (PyVal.float (PyFloat.finite "1.5")))
        = Except.ok (PyVal.float (PyFloat.finite "1.5")) ∧
      (PyFloat.finite "1.5" ≠ PyFloat.nan →
        pyFloatEq (PyFloat.finite "1.5") (PyFloat.finite "1.5") = true) ∧
      stringImpl.deserialize_value (stringImpl.serialize_value (PyVal.str "Tóxico"))
        = Except.ok (PyVal.str "Tóxico")) :=
  ⟨by decide, serialize_roundtrip_amended (PyFloat.finite "1.5") "Tóxico" (by decide)⟩

end CadmaFlow

namespace CadmaFlow

/-- C6: `complete_step` is the only operation advancing the execution cursor —
it sets `current_step` to the completed step's id and `current_step_index`
to its `order + 1` — while `mark_failed` and every other engine operation
(`set_data_retrieval_method`, `start_step`, `log_event`,
`select_property_variant`, `fork_execution`, `branch_execution`, `rewind_to`)
leave the cursor of every pre-existing execution unchanged. -/
theorem complete_step_sole_cursor_advance (db : DB) (i j k tb : Nat) (res : JsonObj)
    (msg fid dc m sid snm ty : String) (ord : Int) (snap : Snapshot) (rcfg : FamilyConfig)
    (mol : Molecule) (P : String) (inst : DataInstance) (u : Option Nat)
    (dets : JsonObj) (bl r : Option String) (N : Int)
    (hi : i < db.executions.length) (hk : k < db.executions.length) :
    ((completeStep db i j res).executions.getD i default).current_step
        = (db.step_executions.getD j default).step_id ∧
    ((completeStep db i j res).executions.getD i default).current_step_index
        = (db.step_executions.getD j default).order + 1 ∧
    (markFailed db j msg).executions = db.executions ∧
    ((setDataRetrievalMethod db i fid dc m).executions.getD k default).current_step
        = (db.executions.getD k default).current_step ∧
    ((setDataRetrievalMethod db i fid dc m).executions.getD k default).current_step_index
        = (db.executions.getD k default).current_step_index ∧
    (startStep db i sid snm ord snap rcfg).1.executions = db.executions ∧
    (logEvent db i ty dets).executions = db.executions ∧
    (selectPropertyVariant db i mol P inst u).executions.getD k default
        = db.executions.getD k default ∧
    (forkExecution db i sid tb).1.executions.getD k default
        = db.executions.getD k default ∧
    (branchExecution db i bl r).1.executions.getD k default
        = db.executions.getD k default ∧
    (rewindTo db i N).1.executions.getD k default = db.executions.getD k default := by
  have hsd : (setDataRetrievalMethod db i fid dc m).executions
      = db.executions.set i
          { db.executions.getD i default with
            family_data_config :=
              famCfgSet (db.executions.getD i default).family_data_config fid dc m } := rfl
  have hcs : (completeStep db i j res).executions
      = db.executions.set i
          { db.executions.getD i default with
            current_step := (db.step_executions.getD j default).step_id,
            current_step_index := (db.step_executions.getD j default).order + 1 } := rfl
  have hsetrow : (setDataRetrievalMethod db i fid dc m).executions.getD k default
      = (if i = k then
          { db.executions.getD i default with
            family_data_config :=
              famCfgSet (db.executions.getD i default).family_data_config fid dc m }
        else db.executions.getD k default) := by
    rw [hsd]
    by_cases hik : i = k
    · subst hik
      rw [if_pos rfl]
      exact getD_set_self _ _ _ hi
    · rw [if_neg hik]
      exact getD_set_ne _ _ _ _ hik
  have hset1 : ((setDataRetrievalMethod db i fid dc m).executions.getD k default).current_step
      = (db.executions.getD k default).current_step := by
    rw [hsetrow]
    by_cases hik : i = k
    · subst hik; rw [if_pos rfl]
    · rw [if_neg hik]
  have hset2 :
      ((setDataRetrievalMethod db i fid dc m).executions.getD k default).current_step_index
      = (db.executions.getD k default).current_step_index := by
    rw [hsetrow]
    by_cases hik : i = k
    · subst hik; rw [if_pos rfl]
    · rw [if_neg hik]
  obtain ⟨cF, hF⟩ := forkExecution_execs db i sid tb
  obtain ⟨cB, hB⟩ := branchExecution_execs db i bl r
  obtain ⟨r2, rsteps, rexecs, rds, rev⟩ := rewindTo_proj db i N
  obtain ⟨b2R, _, _, _, _, _, _, _, _⟩ :=
    branchExecution_spec db i (some ("rewind-to-" ++ toString N)) none
  obtain ⟨cBR, hBR⟩ := branchExecution_execs db i (some ("rewind-to-" ++ toString N)) none
  refine ⟨?_, ?_, rfl, hset1, hset2, rfl, rfl,
    selectPropertyVariant_row db i mol P inst u k hk, ?_, ?_, ?_⟩
  · rw [hcs, getD_set_self _ _ _ hi]
  · rw [hcs, getD_set_self _ _ _ hi]
  · rw [hF]
    exact getD_append_lt _ _ _ hk
  · rw [hB]
    exact getD_append_lt _ _ _ hk
  · rw [rexecs, b2R, getD_set_ne _ _ _ _ (Nat.ne_of_lt hk).symm, hBR]
    exact getD_append_lt _ _ _ hk

/-- C6 witness: the index bounds hold in `sampleDB`, and the theorem
instantiates there. -/
theorem complete_step_sole_cursor_advance_witness :
    0 < sampleDB.executions.length ∧
    (((completeStep sampleDB 0 0 []).executions.getD 0 default).current_step
        = (sampleDB.step_executions.getD 0 default).step_id ∧
    ((completeStep sampleDB 0 0 []).executions.getD 0 default).current_step_index
        = (sampleDB.step_executions.getD 0 default).order + 1 ∧
    (markFailed sampleDB 0 "boom").executions = sampleDB.executions ∧
    ((setDataRetrievalMethod sampleDB 0 "fam1" "LogPData" "user_input").executions.getD 0
        default).current_step = (sampleDB.executions.getD 0 default).current_step ∧
    ((setDataRetrievalMethod sampleDB 0 "fam1" "LogPData" "user_input").executions.getD 0
        default).current_step_index
        = (sampleDB.executions.getD 0 default).current_step_index ∧
    (startStep sampleDB 0 "s2" "Step 2" 1 [] []).1.executions = sampleDB.executions ∧
    (logEvent sampleDB 0 "X" []).executions = sampleDB.executions ∧
    (selectPropertyVariant sampleDB 0 sampleMol "logp" inst7 none).executions.getD 0 default
        = sampleDB.executions.getD 0 default ∧
    (forkExecution sampleDB 0 "s2" 0).1.executions.getD 0 default
        = sampleDB.executions.getD 0 default ∧
    (branchExecution sampleDB 0 none none).1.executions.getD 0 default
        = sampleDB.executions.getD 0 default ∧
    (rewindTo sampleDB 0 0).1.executions.getD 0 default
        = sampleDB.executions.getD 0 default) :=
  ⟨by decide,
   complete_step_sole_cursor_advance sampleDB 0 0 0 0 [] "boom" "fam1" "LogPData"
     "user_input" "s2" "Step 2" "X" 1 [] [] sampleMol "logp" inst7 none [] none none 0
     (by decide) (by decide)⟩

end CadmaFlow

namespace CadmaFlow

/-- C7 counterexample: with a member-less family and no retrieval method
configured for the required class, the claim's premise holds (no method
is configured for that family × class) yet `can_execute` returns **true**
and the run proceeds to create a step instead of aborting — `can_execute`
only performs the check once per family member, so an empty family escapes
the gate. -/
theorem dependency_gate_empty_family_counterexample :
    getDataRetrievalMethod depGateDB 0 "famE" "LogPData" = none ∧
    canExecute depGateDB 0 needsLogPStep = true ∧
    (runSingleStep depGateDB 0 needsLogPStep (fun _ => Except.ok []) true).1
      = RunResult.ok := ⟨rfl, rfl, rfl⟩

/-- C7 amended: `can_execute` is false exactly when some associated family
**with at least one member** has a required data class with no truthy
configured method; in that case the run aborts with the
dependency-unsatisfied error before any `StepExecution` is created, and when
`can_execute` is true the step proceeds, creating exactly one
`StepExecution` record and ending in success or recorded failure. -/
theorem dependency_gate_amended (db : DB) (i : Nat) (step : StepDef)
    (process : Snapshot → Except String JsonObj) (autoSkip : Bool)
    (hnc : isCompletedStep db i step = false) :
    (canExecute db i step = false ↔
      ∃ fIdx ∈ (db.executions.getD i default).families,
        ∃ dc ∈ step.required_data_classes,
          (db.families.getD fIdx default).members ≠ [] ∧
          truthy (famCfgGet (db.executions.getD i default).family_data_config
            (db.families.getD fIdx default).family_id dc) = false) ∧
    (canExecute db i step = false →
      runSingleStep db i step process autoSkip
        = (RunResult.depUnsatisfied step.step_id, db)) ∧
    (canExecute db i step = true →
      (runSingleStep db i step process autoSkip).2.step_executions.length
        = db.step_executions.length + 1 ∧
      ((runSingleStep db i step process autoSkip).1 = RunResult.ok ∨
        ∃ msg, (runSingleStep db i step process autoSkip).1 = RunResult.stepFailed msg)) := by
  refine ⟨canExecute_eq_false_iff db i step, ?_, ?_⟩
  · intro h
    unfold runSingleStep
    rw [hnc, h]
    simp
  · intro h
    unfold runSingleStep
    rw [hnc, h]
    simp only [Bool.and_false, Bool.not_true, if_false]
    cases hp : process (freezeFamilyData db i) with
    | ok results =>
      constructor
      · simp [startStep, executeMarkCompleted, completeStep, logEvent, List.length_set]
      · left; rfl
    | error msg =>
      constructor
      · simp [startStep, markFailed, logEvent, List.length_set]
      · right; exact ⟨msg, rfl⟩

/-- C7 witness: the not-yet-completed hypothesis holds in `depGateDB`, and
the amended theorem instantiates there. -/
theorem dependency_gate_amended_witness :
    isCompletedStep depGateDB 0 needsLogPStep = false ∧
    ((canExecute depGateDB 0 needsLogPStep = false ↔
      ∃ fIdx ∈ (depGateDB.executions.getD 0 default).families,
        ∃ dc ∈ needsLogPStep.required_data_classes,
          (depGateDB.families.getD fIdx default).members ≠ [] ∧
          truthy (famCfgGet (depGateDB.executions.getD 0 default).family_data_config
            (depGateDB.families.getD fIdx default).family_id dc) = false) ∧
    (canExecute depGateDB 0 needsLogPStep = false →
      runSingleStep depGateDB 0 needsLogPStep (fun _ => Except.ok []) true
        = (RunResult.depUnsatisfied needsLogPStep.step_id, depGateDB)) ∧
    (canExecute depGateDB 0 needsLogPStep = true →
      (runSingleStep depGateDB 0 needsLogPStep (fun _ => Except.ok []) true).2.step_executions.length
        = depGateDB.step_executions.length + 1 ∧
      ((runSingleStep depGateDB 0 needsLogPStep (fun _ => Except.ok []) true).1 = RunResult.ok ∨
        ∃ msg, (runSingleStep depGateDB 0 needsLogPStep (fun _ => Except.ok []) true).1
          = RunResult.stepFailed msg))) :=
  ⟨by decide,
   dependency_gate_amended depGateDB 0 needsLogPStep (fun _ => Except.ok []) true (by decide)⟩

end CadmaFlow

namespace CadmaFlow

/-- C8: `get_selected_property(molecule, P)` resolves through the ledger
entry keyed `(execution, branch, molecule, P)` when it exists; when absent it
falls back to the entry for `(execution, molecule, P)` ignoring branch with
maximal `selected_at` (the first such in table order, i.e.
`order_by('-selected_at').first()`); and whenever the matched entry's
`data_class` name does not resolve in the registry the result is `None`
(while a registered name with a matching record resolves to that record). -/
theorem get_selected_property_resolution (db : DB) (i : Nat) (mol : Molecule) (P : String) :
    (∀ ds, db.data_selections.find? (selKey db i mol P) = some ds →
      getSelectedProperty db i mol P = resolveSelection db ds) ∧
    (db.data_selections.find? (selKey db i mol P) = none →
      ∀ ds, latestSelection (db.data_selections.filter (fun s =>
          s.execution == i && s.molecule == mol.id && s.property_name == P)) = some ds →
        ds ∈ db.data_selections.filter (fun s =>
          s.execution == i && s.molecule == mol.id && s.property_name == P) ∧
        (∀ u ∈ db.data_selections.filter (fun s =>
            s.execution == i && s.molecule == mol.id && s.property_name == P),
          u.selected_at ≤ ds.selected_at) ∧
        getSelectedProperty db i mol P = resolveSelection db ds) ∧
    (∀ ds : DataSelection, db.registry.contains ds.data_class = false →
      resolveSelection db ds = none) ∧
    (∀ (ds : DataSelection) (r : DataRecord),
      db.registry.contains ds.data_class = true →
      db.records.find? (fun rec =>
        rec.className == ds.data_class && rec.data_id == ds.data_id) = some r →
      resolveSelection db ds = some r) := by
  refine ⟨?_, ?_, ?_, ?_⟩
  · intro ds h
    unfold getSelectedProperty
    rw [h]
  · intro hnone ds hlatest
    refine ⟨latestSelection_mem _ ds hlatest, latestSelection_max _ ds hlatest, ?_⟩
    unfold getSelectedProperty
    rw [hnone, hlatest]
  · intro ds h
    unfold resolveSelection
    rw [if_neg (show ¬(db.registry.contains ds.data_class = true) from by rw [h]; simp)]
  · intro ds r hreg hfind
    unfold resolveSelection
    rw [if_pos hreg, hfind]

/-- C8 witness: in `sampleSelDB` the exact keyed entry is `sampleSel`, and
the theorem's first clause instantiates there. -/
theorem get_selected_property_resolution_witness :
    sampleSelDB.data_selections.find? (selKey sampleSelDB 0 sampleMol "logp")
      = some sampleSel ∧
    getSelectedProperty sampleSelDB 0 sampleMol "logp" = resolveSelection sampleSelDB sampleSel :=
  ⟨by decide,
   (get_selected_property_resolution sampleSelDB 0 sampleMol "logp").1 sampleSel (by decide)⟩

end CadmaFlow

namespace CadmaFlow

/-- C9 counterexample: on concrete data, `fork_execution` logs **no** `FORK`
event on the source execution (index 0) — the single `FORK` event is
attached to the newly created clone (index 1), because the source does
`clone.log_event(...)`. This refutes the claim's "logs a FORK event on the
source execution". -/
theorem fork_event_on_clone_counterexample :
    ((forkExecution fork9DB 0 "E2" 1).1.events.filter
        (fun e => e.execution == 0 && e.event_type == "FORK")).length = 0 ∧
    ((forkExecution fork9DB 0 "E2" 1).1.events.filter
        (fun e => e.execution == 1 && e.event_type == "FORK")).length = 1 ∧
    (forkExecution fork9DB 0 "E2" 1).2 = 1 := ⟨rfl, rfl, rfl⟩

/-- C9 amended: `fork_execution(new_execution_id, target_branch)` creates one
new execution copying the source's description, blueprint, family config and
family membership, annotates the name with the fork target, sets
`parent_execution` to the source, copies no `StepExecution` rows and no
`DataSelection` rows, and logs a single `FORK` event **on the clone** whose
details name the source execution and the target branch. -/
theorem fork_execution_shallow_clone (db : DB) (i : Nat) (nid : String) (tb : Nat) :
    (forkExecution db i nid tb).2 = db.executions.length ∧
    (forkExecution db i nid tb).1.executions.length = db.executions.length + 1 ∧
    (forkExecution db i nid tb).1.executions.take db.executions.length = db.executions ∧
    ((forkExecution db i nid tb).1.executions.getD db.executions.length default).execution_id
      = nid ∧
    ((forkExecution db i nid tb).1.executions.getD db.executions.length default).name
      = (db.executions.getD i default).name ++ " (fork:"
        ++ (db.branches.getD tb default).branch_id ++ ")" ∧
    ((forkExecution db i nid tb).1.executions.getD db.executions.length default).description
      = (db.executions.getD i default).description ∧
    ((forkExecution db i nid tb).1.executions.getD db.executions.length default).workflow
      = (db.executions.getD i default).workflow ∧
    ((forkExecution db i nid tb).1.executions.getD db.executions.length default).branch = tb ∧
    ((forkExecution db i nid tb).1.executions.getD db.executions.length default).families
      = (db.executions.getD i default).families ∧
    ((forkExecution db i nid tb).1.executions.getD
        db.executions.length default).family_data_config
      = (db.executions.getD i default).family_data_config ∧
    ((forkExecution db i nid tb).1.executions.getD
        db.executions.length default).parent_execution = some i ∧
    (forkExecution db i nid tb).1.step_executions = db.step_executions ∧
    (forkExecution db i nid tb).1.data_selections = db.data_selections ∧
    (forkExecution db i nid tb).1.events = db.events
      ++ [{ execution := db.executions.length, event_type := "FORK",
            details := [("from", (db.executions.getD i default).execution_id),
                        ("to_branch", (db.branches.getD tb default).branch_id)],
            created_at := db.now }] := by
  refine ⟨rfl, ?_, ?_, ?_, ?_, ?_, ?_, ?_, ?_, ?_, ?_, rfl, rfl, ?_⟩
  all_goals simp [forkExecution, logEvent, getD_append_length, List.take_left]

/-- C10: the execution produced by `branch_execution` (and by `rewind_to`,
which goes through it) starts with zero `DataSelection` entries of its own —
deep branching clones the COMPLETED `StepExecution` rows and the family
config but leaves the selection ledger entirely untouched; only the
auto-fork path clones selections. -/
theorem branch_execution_never_clones_selections (db : DB) (i : Nat)
    (bl r : Option String) (N : Int)
    (hwfsel : ∀ s ∈ db.data_selections, s.execution < db.executions.length) :
    (branchExecution db i bl r).1.data_selections = db.data_selections ∧
    (branchExecution db i bl r).1.data_selections.filter
      (fun s => s.execution == (branchExecution db i bl r).2) = [] ∧
    (rewindTo db i N).1.data_selections = db.data_selections ∧
    (rewindTo db i N).1.data_selections.filter
      (fun s => s.execution == (rewindTo db i N).2) = [] ∧
    (∀ se ∈ db.step_executions, se.execution = i → se.status = Status.COMPLETED →
      ({ se with execution := db.executions.length, status := Status.COMPLETED } : StepExecution)
        ∈ (branchExecution db i bl r).1.step_executions) ∧
    ((branchExecution db i bl r).1.executions.getD
        db.executions.length default).family_data_config
      = (db.executions.getD i default).family_data_config := by
  obtain ⟨b2, blen, btake, bparent, bcfg, bcsi, bsteps, bds, bev⟩ :=
    branchExecution_spec db i bl r
  obtain ⟨r2, rsteps, rexecs, rds, rev⟩ := rewindTo_proj db i N
  obtain ⟨b2R, blenR, btakeR, bparentR, bcfgR, bcsiR, bstepsR, bdsR, bevR⟩ :=
    branchExecution_spec db i (some ("rewind-to-" ++ toString N)) none
  refine ⟨bds, ?_, rds.trans bdsR, ?_, ?_, bcfg⟩
  · rw [bds, b2, List.filter_eq_nil_iff]
    intro x hx
    simp [Nat.ne_of_lt (hwfsel x hx)]
  · rw [rds.trans bdsR, r2, b2R, List.filter_eq_nil_iff]
    intro x hx
    simp [Nat.ne_of_lt (hwfsel x hx)]
  · intro se hse hexec hstat
    rw [bsteps]
    refine List.mem_append_right _ ?_
    unfold clonedStepList
    refine List.mem_map_of_mem _ ?_
    rw [(sortByOrder_perm _).mem_iff, List.mem_filter]
    exact ⟨hse, by simp [hexec, hstat]⟩

/-- C10 witness: the referential well-formedness hypothesis holds in
`sampleDB` (its ledger is empty), and the theorem instantiates there. -/
theorem branch_execution_never_clones_selections_witness :
    (∀ s ∈ sampleDB.data_selections, s.execution < sampleDB.executions.length) ∧
    ((branchExecution sampleDB 0 none none).1.data_selections = sampleDB.data_selections ∧
    (branchExecution sampleDB 0 none none).1.data_selections.filter
      (fun s => s.execution == (branchExecution sampleDB 0 none none).2) = [] ∧
    (rewindTo sampleDB 0 0).1.data_selections = sampleDB.data_selections ∧
    (rewindTo sampleDB 0 0).1.data_selections.filter
      (fun s => s.execution == (rewindTo sampleDB 0 0).2) = [] ∧
    (∀ se ∈ sampleDB.step_executions, se.execution = 0 → se.status = Status.COMPLETED →
      ({ se with
          execution := sampleDB.executions.length,
          status := Status.COMPLETED } : StepExecution)
        ∈ (branchExecution sampleDB 0 none none).1.step_executions) ∧
    ((branchExecution sampleDB 0 none none).1.executions.getD
        sampleDB.executions.length default).family_data_config
      = (sampleDB.executions.getD 0 default).family_data_config) :=
  ⟨by decide,
   branch_execution_never_clones_selections sampleDB 0 none none 0 (by decide)⟩

end CadmaFlow
